import Mathlib

/-!
Shallow embedding of the `generate-resolvers` schema-to-code synthesis engine
(GraphQL resolver codegen): the type-variant dispatchers (`src/lib/graphql-dispatch.js`),
the Flow type-reference renderer, the resolver-shape synthesizer and the
orchestration entry point (main generator module), the `ModuleBuilder`
(`src/lib/ModuleBuilder.js`) and the output-directory orphan check
(`src/lib/io.js`).

JS strings are modelled as Lean `String`; the handful of JS string and array
primitives the code uses (`endsWith`, `substring`, `join`, `toLowerCase`,
`startsWith`, relational comparison) are modelled on `String.data` so that all
definitions are executable and kernel-reducible.  All code in this file is
translated from the JavaScript source; comments mark the original locations.
-/

/-- Model of JS `String.prototype.endsWith(pattern)`: the last `pattern.length`
code units of `s` equal `pattern`.  All strings involved are ASCII, so Lean
characters coincide with JS UTF-16 code units. -/
def jsEndsWith (s pattern : String) : Bool :=
  pattern.data.isSuffixOf s.data

/-- Model of JS `String.prototype.startsWith(pattern)`. -/
def jsStartsWith (s pattern : String) : Bool :=
  pattern.data.isPrefixOf s.data

/-- Model of JS `s.substring(0, j)`: the first `j` code units of `s`. -/
def jsSubstringTo (s : String) (j : Nat) : String :=
  ⟨s.data.take j⟩

/-- Model of JS `Array.prototype.join(sep)` on an array of strings. -/
def jsJoin (sep : String) : List String → String
  | [] => ""
  | [a] => a
  | a :: b :: rest => a ++ sep ++ jsJoin sep (b :: rest)

/-- The ASCII fragment of JS `String.prototype.toLowerCase`, applied
per character.  All identifiers sorted by the generator are ASCII. -/
def jsCharToLower (c : Char) : Char :=
  if 65 ≤ c.toNat ∧ c.toNat ≤ 90 then Char.ofNat (c.toNat + 32) else c

/-- Model of JS `String.prototype.toLowerCase` (ASCII fragment). -/
def jsToLower (s : String) : String :=
  ⟨s.data.map jsCharToLower⟩

/-- JS string comparison (`<` / lodash `compareAscending` on strings):
lexicographic comparison of code units.  `jsStrLeData l1 l2 = true` iff
`l1` is less than or equal to `l2` in that order. -/
def jsStrLeData : List Char → List Char → Bool
  | [], _ => true
  | _ :: _, [] => false
  | a :: as, b :: bs =>
    if a.toNat < b.toNat then true
    else if b.toNat < a.toNat then false
    else jsStrLeData as bs

/-- JS string less-or-equal on `String`. -/
def jsStrLe (a b : String) : Bool :=
  jsStrLeData a.data b.data

/-- Model of `JSON.stringify` applied to the plain identifier / module-path /
enum-value strings this generator quotes (no characters needing escapes). -/
def jsonString (s : String) : String :=
  "\"" ++ s ++ "\""

/-- Model of `path.resolve(dir, f)` for the two shapes that occur in the
generator: `f` a bare basename (resolved to `dir ++ "/" ++ f`) or `f` a path
already resolved against `dir` (returned unchanged, as `path.resolve` returns
absolute paths unchanged). -/
def resolvePath (dir f : String) : String :=
  if jsStartsWith f (dir ++ "/") then f else dir ++ "/" ++ f

mutual

/-- Schema type node: the closed variant set of the GraphQL in-memory type
graph as consumed by the generator (`GraphQLScalarType`, `GraphQLEnumType`,
`GraphQLObjectType`, `GraphQLInterfaceType`, `GraphQLUnionType`,
`GraphQLInputObjectType`, `GraphQLList`, `GraphQLNonNull`).  Union member
types are stored by name (the source only reads `t.name` of
`union.getTypes()`); enum values store `entry.value` strings. -/
inductive GType : Type where
  | scalar (name : String)
  | enum (name : String) (values : List String)
  | object (obj : GObjectData)
  | interfaceT (iface : GInterfaceData)
  | union (name : String) (memberTypes : List String)
  | inputObject (name : String) (fields : List GInputValue)
  | listT (ofType : GType)
  | nonNull (ofType : GType)

/-- Payload of a `GraphQLObjectType`: `name`, `getInterfaces()` (in
declaration order) and `getFields()` (an ordered mapping, modelled as the
ordered list of field descriptors; JS object keys preserve insertion order). -/
inductive GObjectData : Type where
  | mk (name : String) (interfaces : List GInterfaceData) (fields : List GField)

/-- Payload of a `GraphQLInterfaceType`: `name` and ordered `getFields()`. -/
inductive GInterfaceData : Type where
  | mk (name : String) (fields : List GField)

/-- Field descriptor: `name`, output `type` and ordered `args`. -/
inductive GField : Type where
  | mk (name : String) (type : GType) (args : List GInputValue)

/-- Named input-position type reference: an argument or input-object field. -/
inductive GInputValue : Type where
  | mk (name : String) (type : GType)

end

def GObjectData.name : GObjectData → String
  | .mk n _ _ => n

def GObjectData.interfaces : GObjectData → List GInterfaceData
  | .mk _ i _ => i

def GObjectData.fields : GObjectData → List GField
  | .mk _ _ f => f

def GInterfaceData.name : GInterfaceData → String
  | .mk n _ => n

def GInterfaceData.fields : GInterfaceData → List GField
  | .mk _ f => f

def GField.name : GField → String
  | .mk n _ _ => n

def GField.type : GField → GType
  | .mk _ t _ => t

def GField.args : GField → List GInputValue
  | .mk _ _ a => a

def GInputValue.name : GInputValue → String
  | .mk n _ => n

def GInputValue.type : GInputValue → GType
  | .mk _ t => t

/-- JS `node.name || ''`: the `name` property of a type node, `''` for the
wrapper nodes (`GraphQLList` / `GraphQLNonNull`), whose `name` is undefined. -/
def GType.nameOrEmpty : GType → String
  | .scalar n => n
  | .enum n _ => n
  | .object o => o.name
  | .interfaceT i => i.name
  | .union n _ => n
  | .inputObject n _ => n
  | .listT _ => ""
  | .nonNull _ => ""

/-- Whether the node is a `GraphQLNonNull` wrapper. -/
def GType.isNonNullType : GType → Bool
  | .nonNull _ => true
  | _ => false

/-- Error taxonomy of the generator.  Each constructor models one family of
`throw new Error(...)` sites:
* `unhandledVariant node` — `odispatch`'s "Dispatcher does not handle node of
  type ..., and also does not define a default handler";
* `malformedNullableExpr got` — `nonOptional`'s "Expected type to end with
  \" | null\", but got ...";
* `missingTypeName node` — the renderers' "Missing type name: ...";
* `notImplemented node` — `toResolverTypeDefinition`'s "Not implemented: ...";
* `contractViolation file symbol` — the scaffold checks' "Error in file:
  module must export ... symbol";
* `jsTypeError msg` — a raw JavaScript `TypeError` raised by the runtime
  itself (not by a `throw` in the source), e.g. calling `undefined`. -/
inductive GenError : Type where
  | unhandledVariant (node : GType)
  | malformedNullableExpr (got : String)
  | missingTypeName (node : GType)
  | notImplemented (node : GType)
  | contractViolation (file : String) (symbol : String)
  | jsTypeError (message : String)

/-- Output-position dispatcher table (`OutputTypeDispatchers`): a partial
mapping from variants to handlers plus an optional `default` handler.
Handlers may themselves throw, hence the `Except` codomain. -/
structure ODispatchers (α : Type) : Type where
  onScalar : Option (GType → Except GenError α) := none
  onNonNull : Option (GType → Except GenError α) := none
  onObject : Option (GType → Except GenError α) := none
  onList : Option (GType → Except GenError α) := none
  onEnum : Option (GType → Except GenError α) := none
  onInterface : Option (GType → Except GenError α) := none
  onUnion : Option (GType → Except GenError α) := none
  defaultHandler : Option (GType → Except GenError α) := none

/-- Input-position dispatcher table (`InputTypeDispatchers`): handlers for
Scalar, Enum, InputObject (`onObject`), List and NonNull plus `default`. -/
structure IDispatchers (α : Type) : Type where
  onScalar : Option (GType → Except GenError α) := none
  onEnum : Option (GType → Except GenError α) := none
  onObject : Option (GType → Except GenError α) := none
  onList : Option (GType → Except GenError α) := none
  onNonNull : Option (GType → Except GenError α) := none
  defaultHandler : Option (GType → Except GenError α) := none

/-- The handler `odispatch` selects for a node, if any.  The source tests
`value instanceof X && dispatchers.onX` in the order Scalar, NonNull, Object,
List, Enum, Interface, Union; the `instanceof` classes are pairwise disjoint,
so this is a per-variant lookup.  An `inputObject` value matches no branch of
the output chain and falls through to the default. -/
def odispatchHandlerFor (value : GType) (d : ODispatchers α) :
    Option (GType → Except GenError α) :=
  match value with
  | .scalar _ => d.onScalar
  | .nonNull _ => d.onNonNull
  | .object _ => d.onObject
  | .listT _ => d.onList
  | .enum _ _ => d.onEnum
  | .interfaceT _ => d.onInterface
  | .union _ _ => d.onUnion
  | .inputObject _ _ => none

/-- `odispatch` (`graphql-dispatch.js`): dispatch into the matching handler;
with no matching handler, the source explicitly checks `dispatchers.default`
and throws the "Dispatcher does not handle node ..." error naming the node
when it is absent. -/
def odispatch (value : GType) (d : ODispatchers α) : Except GenError α :=
  match odispatchHandlerFor value d with
  | some h => h value
  | none =>
    match d.defaultHandler with
    | none => Except.error (GenError.unhandledVariant value)
    | some h => h value

/-- The handler `idispatch` selects for a node, if any (chain order Scalar,
Enum, InputObject, List, NonNull; disjoint `instanceof` classes).  The
output-only variants (Object, Interface, Union) match no branch. -/
def idispatchHandlerFor (value : GType) (d : IDispatchers α) :
    Option (GType → Except GenError α) :=
  match value with
  | .scalar _ => d.onScalar
  | .enum _ _ => d.onEnum
  | .inputObject _ _ => d.onObject
  | .listT _ => d.onList
  | .nonNull _ => d.onNonNull
  | .object _ => none
  | .interfaceT _ => none
  | .union _ _ => none

/-- `idispatch` (`graphql-dispatch.js`): unlike `odispatch`, the source's
else-branch calls `dispatchers.default(value, context)` WITHOUT first checking
that a default handler was supplied; when it is absent the JS runtime raises
`TypeError: dispatchers.default is not a function` (which does not name the
node). -/
def idispatch (value : GType) (d : IDispatchers α) : Except GenError α :=
  match idispatchHandlerFor value d with
  | some h => h value
  | none =>
    match d.defaultHandler with
    | some h => h value
    | none => Except.error (GenError.jsTypeError "dispatchers.default is not a function")

/-- `ROOT_TYPES` from the generator module. -/
def ROOT_TYPES : List String := ["Query", "Mutation"]

/-- `BUILTINS` from the generator module. -/
def BUILTINS : List String := ["Boolean", "Float", "ID", "Int", "String"]

/-- `FLOW_SCALARS`: the builtin-scalar-name → Flow-type table, as a partial
lookup (JS property access on the object literal). -/
def FLOW_SCALARS (name : String) : Option String :=
  match name with
  | "ID" => some "string | number | null"
  | "String" => some "string | null"
  | "Int" => some "number | null"
  | "Float" => some "number | null"
  | "Boolean" => some "boolean | null"
  | _ => none

/-- `nonOptional` (generator module): strip the `" | null"` suffix from a
nullable Flow type expression; throws when the expression does not end with
the exact suffix.  `baseTypeExpr.substring(0, baseTypeExpr.length - 7)` is
`jsSubstringTo baseTypeExpr (baseTypeExpr.data.length - 7)`. -/
def nonOptional (baseTypeExpr : String) : Except GenError String :=
  if jsEndsWith baseTypeExpr " | null" then
    Except.ok (jsSubstringTo baseTypeExpr (baseTypeExpr.data.length - 7))
  else
    Except.error (GenError.malformedNullableExpr baseTypeExpr)

/-- `toFlowOutputTypeRef`: render an output-position type reference.  The
source routes through `odispatch` with handlers for Scalar, NonNull and List
plus a default; since every variant is covered by one of those four branches,
the dispatch is this structural match (see
`toFlowOutputTypeRef_eq_odispatch` below). -/
def toFlowOutputTypeRef : GType → Except GenError String
  | GType.scalar name =>
    Except.ok ((FLOW_SCALARS name).getD (name ++ " | null"))
  | GType.nonNull ofType =>
    match toFlowOutputTypeRef ofType with
    | Except.ok baseType => nonOptional baseType
    | Except.error e => Except.error e
  | GType.listT ofType =>
    match toFlowOutputTypeRef ofType with
    | Except.ok inner => Except.ok ("Array<" ++ inner ++ "> | null")
    | Except.error e => Except.error e
  | value =>
    let name := value.nameOrEmpty
    if name = "" then Except.error (GenError.missingTypeName value)
    else Except.ok (name ++ " | null")

/-- `toFlowInputTypeRef`: render an input-position type reference (same
algorithm as the output renderer, routed through `idispatch`). -/
def toFlowInputTypeRef : GType → Except GenError String
  | GType.scalar name =>
    Except.ok ((FLOW_SCALARS name).getD (name ++ " | null"))
  | GType.nonNull ofType =>
    match toFlowInputTypeRef ofType with
    | Except.ok baseType => nonOptional baseType
    | Except.error e => Except.error e
  | GType.listT ofType =>
    match toFlowInputTypeRef ofType with
    | Except.ok inner => Except.ok ("Array<" ++ inner ++ "> | null")
    | Except.error e => Except.error e
  | value =>
    let name := value.nameOrEmpty
    if name = "" then Except.error (GenError.missingTypeName value)
    else Except.ok (name ++ " | null")

/-- `Array.prototype.map` over a callback that may throw: JS evaluates
left-to-right and the first exception aborts the whole expression. -/
def exceptMapM (f : α → Except GenError β) : List α → Except GenError (List β)
  | [] => Except.ok []
  | a :: as =>
    match f a with
    | Except.error e => Except.error e
    | Except.ok b =>
      match exceptMapM f as with
      | Except.error e => Except.error e
      | Except.ok bs => Except.ok (b :: bs)

/-- `toFlowArgType`: the structural record of a field's arguments,
`{| +name: type, ... |}`. -/
def toFlowArgType (args : List GInputValue) : Except GenError String :=
  match exceptMapM (fun arg => (toFlowInputTypeRef arg.type).map
      (fun t => "+" ++ arg.name ++ ": " ++ t)) args with
  | Except.ok fieldExprs => Except.ok ("\x7b| " ++ jsJoin ", " fieldExprs ++ " |\x7d")
  | Except.error e => Except.error e

/-- `toFieldTypeDefinition`: one resolver-signature line
`name: Resolver<P,O,A>,`.  `args` is `null` (omitted) for a zero-argument
field; `[parent, output, args].filter(Boolean)` keeps the non-null,
non-empty entries. -/
def toFieldTypeDefinition (parentObj : GObjectData) (field : GField) :
    Except GenError String :=
  let parent := if ROOT_TYPES.contains parentObj.name then "null" else parentObj.name
  match toFlowOutputTypeRef field.type with
  | Except.error e => Except.error e
  | Except.ok output =>
    match (if field.args.length == 0 then Except.ok none
           else (toFlowArgType field.args).map some : Except GenError (Option String)) with
    | Except.error e => Except.error e
    | Except.ok args =>
      let parts := ((match args with
        | none => [parent, output]
        | some a => [parent, output, a]).filter (fun s => s ≠ ""))
      Except.ok (field.name ++ ": Resolver<" ++ jsJoin "," parts ++ ">,")

/-- One interface section of an Object's resolver shape, as the list of lines
pushed by the loop body in `toResolverTypeDefinition`: a blank line, the
provenance comment `// From <iface>`, then one resolver-signature line per
interface field (in field order). -/
def objectIfaceSection (node : GObjectData) (iface : GInterfaceData) :
    Except GenError (List String) :=
  match exceptMapM (toFieldTypeDefinition node) iface.fields with
  | Except.error e => Except.error e
  | Except.ok fieldLines => Except.ok ("" :: ("// From " ++ iface.name) :: fieldLines)

/-- The "seen" set accumulated over all implemented interfaces: every
interface field name is added (`seen.add(ifieldName)`), across all
interfaces, before the own-fields pass runs. -/
def objectSeenFieldNames (node : GObjectData) : List String :=
  node.interfaces.flatMap (fun iface => iface.fields.map GField.name)

/-- The own-field lines of an Object's resolver shape: fields of the Object
whose names are not in the "seen" set, each rendered as a resolver
signature. -/
def objectOwnFieldLines (node : GObjectData) : Except GenError (List String) :=
  exceptMapM (toFieldTypeDefinition node)
    (node.fields.filter (fun f => !(objectSeenFieldNames node).contains f.name))

/-- The array joined by `toResolverTypeDefinition`'s Object branch: the
header, one pre-joined section string per implemented interface, the own
field lines, and the closing `|}`. -/
def objectResolverLines (node : GObjectData) : Except GenError (List String) :=
  match exceptMapM (objectIfaceSection node) node.interfaces with
  | Except.error e => Except.error e
  | Except.ok sections =>
    match objectOwnFieldLines node with
    | Except.error e => Except.error e
    | Except.ok ownLines =>
      Except.ok ((("export type " ++ node.name ++ "Resolver = \x7b|")
        :: sections.map (jsJoin "\n")) ++ ownLines ++ ["|\x7d"])

/-- The same shape with the interface sections spliced in un-joined, so that
the result is the flat list of output lines.  `objectResolver_flatten` below
proves the two produce the same joined string. -/
def objectResolverFlatLines (node : GObjectData) : Except GenError (List String) :=
  match exceptMapM (objectIfaceSection node) node.interfaces with
  | Except.error e => Except.error e
  | Except.ok sections =>
    match objectOwnFieldLines node with
    | Except.error e => Except.error e
    | Except.ok ownLines =>
      Except.ok ((("export type " ++ node.name ++ "Resolver = \x7b|")
        :: sections.flatten) ++ ownLines ++ ["|\x7d"])

/-- `toResolverTypeDefinition`: per-type resolver/alias definition text.
Scalar, Interface and Union are skipped (empty string); Object emits the
`<name>Resolver` exact-object type; Enum emits a union-of-literal-values
alias; every other variant hits the throwing default handler. -/
def toResolverTypeDefinition (value : GType) : Except GenError String :=
  match value with
  | GType.scalar _ => Except.ok ""
  | GType.interfaceT _ => Except.ok ""
  | GType.union _ _ => Except.ok ""
  | GType.object node =>
    match objectResolverLines node with
    | Except.error e => Except.error e
    | Except.ok lines => Except.ok (jsJoin "\n" lines)
  | GType.enum name values =>
    let def_ := jsJoin "\n" (values.map (fun v => "| " ++ jsonString v ++ "\n"))
    Except.ok ("export type " ++ name ++ " = \n" ++ def_)
  | value => Except.error (GenError.notImplemented value)

/-- Stable ascending sort by a string key: lodash `sortBy(collection,
iteratee)` (a stable sort comparing iteratee values with `compareAscending`,
which on strings is code-unit order). -/
def sortByKey (key : α → String) (l : List α) : List α :=
  l.insertionSort (fun a b => jsStrLe (key a) (key b) = true)

/-- The schema as consumed by the generator: `getTypeMap()` is an ordered
mapping name → type node (JS object, insertion-ordered keys). -/
structure Schema : Type where
  typeMap : List (String × GType)

/-- `schema.getType(name)`. -/
def schemaGetType (schema : Schema) (name : String) : Option GType :=
  (schema.typeMap.find? (fun p => p.1 == name)).map Prod.snd

/-- `namedTypesFromSchema`: all type-map keys except the introspection types
(names starting with `__`) and the builtin scalar names, sorted
alphabetically (`sortBy` with the identity iteratee). -/
def namedTypesFromSchema (schema : Schema) : List String :=
  sortByKey (fun n => n)
    (((schema.typeMap.map Prod.fst).filter (fun name => !jsStartsWith name "__")).filter
      (fun name => !BUILTINS.contains name))

/-- `isUnionOrInterfaceType`. -/
def isUnionOrInterfaceType (schema : Schema) (typename : String) : Bool :=
  match schemaGetType schema typename with
  | some (GType.interfaceT _) => true
  | some (GType.union _ _) => true
  | _ => false

/-- Whether the named type is a `GraphQLScalarType`. -/
def isScalarNamedType (schema : Schema) (typename : String) : Bool :=
  match schemaGetType schema typename with
  | some (GType.scalar _) => true
  | _ => false

/-- Whether the named type is a `GraphQLObjectType`. -/
def isObjectNamedType (schema : Schema) (typename : String) : Bool :=
  match schemaGetType schema typename with
  | some (GType.object _) => true
  | _ => false

/-- `getConcreteSubtypes`: for a Union, its declared member types directly
(`type.getTypes().map(t => t.name)`, declaration order); otherwise scan the
canonical type index for Object types listing the name among their
implemented interfaces. -/
def getConcreteSubtypes (schema : Schema) (name : String) : List String :=
  match schemaGetType schema name with
  | some (GType.union _ memberTypes) => memberTypes
  | _ =>
    (namedTypesFromSchema schema).filter (fun typename =>
      match schemaGetType schema typename with
      | some (GType.object obj) => obj.interfaces.any (fun iface => iface.name == name)
      | _ => false)

/-- JS `Map.prototype.get`, on the insertion-ordered association list that
models a `Map`. -/
def mapGet (m : List (String × α)) (k : String) : Option α :=
  (m.find? (fun p => p.1 == k)).map Prod.snd

/-- JS `Map.prototype.set`: update the value in place if the key is present
(keeping its position), else append a new entry. -/
def mapSet (m : List (String × α)) (k : String) (v : α) : List (String × α) :=
  if m.any (fun p => p.1 == k) then
    m.map (fun p => if p.1 == k then (k, v) else p)
  else m ++ [(k, v)]

/-- JS `Set.prototype.add`, on the insertion-ordered duplicate-free list that
models a `Set`. -/
def setAdd (s : List String) (x : String) : List String :=
  if s.contains x then s else s ++ [x]

/-- `ModuleBuilder` state (`src/lib/ModuleBuilder.js`): per-module import
collections (insertion-ordered maps keyed by source module), the accumulated
type-definition and value-definition code sections, and the header comment.
The key-registered definition factories (`registerDef` / `require`) are
callback-valued and exercised by no claim; the direct `emit(code)` path is
what the generator itself uses for definitions, and is modelled. -/
structure ModuleBuilder : Type where
  headerComment : String := ""
  namespaceImports : List (String × String) := []
  defaultImports : List (String × String) := []
  namedImports : List (String × List String) := []
  typeImports : List (String × List String) := []
  typeDefCode : List String := []
  defCode : List String := []

/-- `new ModuleBuilder(comment)`. -/
def ModuleBuilder.new (comment : String := "") : ModuleBuilder :=
  { headerComment := comment }

/-- `addNamespaceImport(identifier, from_)`: one binding per source module,
re-registering overwrites. -/
def ModuleBuilder.addNamespaceImport (mb : ModuleBuilder) (identifier from_ : String) :
    ModuleBuilder :=
  { mb with namespaceImports := mapSet mb.namespaceImports from_ identifier }

/-- `addDefaultImport(identifier, from_)`. -/
def ModuleBuilder.addDefaultImport (mb : ModuleBuilder) (identifier from_ : String) :
    ModuleBuilder :=
  { mb with defaultImports := mapSet mb.defaultImports from_ identifier }

/-- `addNamedImport(identifier, from_)`: identifiers are unique'd into the
per-module set. -/
def ModuleBuilder.addNamedImport (mb : ModuleBuilder) (identifier from_ : String) :
    ModuleBuilder :=
  let names := (mapGet mb.namedImports from_).getD []
  { mb with namedImports := mapSet mb.namedImports from_ (setAdd names identifier) }

/-- `addTypeImport(identifier, from_)`. -/
def ModuleBuilder.addTypeImport (mb : ModuleBuilder) (identifier from_ : String) :
    ModuleBuilder :=
  let types := (mapGet mb.typeImports from_).getD []
  { mb with typeImports := mapSet mb.typeImports from_ (setAdd types identifier) }

/-- `emit(code)` with a string argument: append to the value-definition
section immediately. -/
def ModuleBuilder.emit (mb : ModuleBuilder) (code : String) : ModuleBuilder :=
  { mb with defCode := mb.defCode ++ [code] }

/-- The named-import identifier set registered for one source module. -/
def ModuleBuilder.namedIdentifiersOf (mb : ModuleBuilder) (from_ : String) : List String :=
  (mapGet mb.namedImports from_).getD []

/-- `iterImports`: the `[priority, sortKey, line]` tuples, in collection
order — namespace imports (priority 0), named imports (priority 1, sort key
the first identifier of the case-insensitively sorted identifier list),
default imports (priority 2), type imports (priority 3).  `sorted[0]` of a
registered module's set is always defined since sets only grow; `headD ""`
models the (unreachable for reachable builders) empty case. -/
def ModuleBuilder.iterImports (mb : ModuleBuilder) : List (Nat × String × String) :=
  (mb.namespaceImports.map (fun p =>
    (0, p.2, "import * as " ++ p.2 ++ " from " ++ jsonString p.1)))
  ++ (mb.namedImports.map (fun p =>
    let sorted := sortByKey jsToLower p.2
    (1, sorted.headD "",
      "import \x7b " ++ jsJoin ", " sorted ++ " \x7d from " ++ jsonString p.1)))
  ++ (mb.defaultImports.map (fun p =>
    (2, p.2, "import " ++ p.2 ++ " from " ++ jsonString p.1)))
  ++ (mb.typeImports.map (fun p =>
    let sorted := sortByKey jsToLower p.2
    (3, sorted.headD "",
      "import type \x7b " ++ jsJoin ", " sorted ++ " \x7d from " ++ jsonString p.1)))

/-- The comparison used by `toString`'s `sortBy` with the two iteratees
`priority` and `m.toLowerCase()`: ascending by priority, ties by the
lowercased sort key. -/
def importEntryLe (a b : Nat × String × String) : Prop :=
  a.1 < b.1 ∨ (a.1 = b.1 ∧ jsStrLe (jsToLower a.2.1) (jsToLower b.2.1) = true)

instance : DecidableRel importEntryLe := fun a b => by
  unfold importEntryLe; infer_instance

/-- The sorted import entry list of `toString`. -/
def sortImportEntries (l : List (Nat × String × String)) : List (Nat × String × String) :=
  l.insertionSort importEntryLe

/-- `ModuleBuilder.prototype.toString`: header comment, blank line, the
sorted import lines, blank line, type-definition section, blank line,
value-definition section, all joined with newlines.  Each accumulated code
chunk gets a trailing newline (`code => code + '\n'`). -/
def ModuleBuilder.toString (mb : ModuleBuilder) : String :=
  let importLines := (sortImportEntries mb.iterImports).map (fun t => t.2.2)
  let typeDefLines := mb.typeDefCode.map (fun code => code ++ "\n")
  let defLines := mb.defCode.map (fun code => code ++ "\n")
  jsJoin "\n" ([mb.headerComment, ""] ++ importLines ++ [""] ++ typeDefLines
    ++ [""] ++ defLines)

/-- The filesystem facts the idempotency logic consults: whether a path
exists, and the exported identifier names the external export-scanner
(`getExportsFromPath`) reports for it. -/
structure FileSystemEnv : Type where
  fileExists : String → Bool
  exportsOf : String → List String

/-- `checkOutputDir` (`src/lib/io.js`): resolve the directory listing and the
expected files to full paths, keep listing entries matching the pattern that
are not expected, sort them (for the warning report), and return whether none
were found.  Returns `true` regardless of whether expected files are actually
present in the directory. -/
def checkOutputDir (dir : String) (dirListing : List String)
    (pattern : String → Bool) (expectedFiles : List String) : Bool :=
  let expected := expectedFiles.map (fun f => resolvePath dir f)
  let unexpected := sortByKey (fun f => f)
    (((dirListing.map (fun f => resolvePath dir f)).filter pattern).filter
      (fun f => !expected.contains f))
  unexpected.length == 0

/-- The `/.*\.js$/` filename pattern (an unanchored match: any name ending in
`.js`). -/
def jsFilePattern (f : String) : Bool :=
  jsEndsWith f ".js"

/-- The `/(index|.*resolver)\.js$/i` filename pattern: case-insensitively,
any name ending in `index.js` or in `resolver.js`. -/
def resolverFilePattern (f : String) : Bool :=
  jsEndsWith (jsToLower f) "index.js" || jsEndsWith (jsToLower f) "resolver.js"

/-- `writeScalarImpl`: for an existing scaffold file, consult the
export-scanner and require the scalar's type alias, `serialize` and `decoder`
exports, failing with the `Error in <file>: module must export ...` error
naming the file and the first missing symbol; the existing file is never
written.  For a missing file, write the scaffold (the written path is
returned as `some`). -/
def writeScalarImpl (env : FileSystemEnv) (name outputFile : String) :
    Except GenError (Option String) :=
  if env.fileExists outputFile then
    let exports := env.exportsOf outputFile
    if !exports.contains name then
      Except.error (GenError.contractViolation outputFile name)
    else if !exports.contains "serialize" then
      Except.error (GenError.contractViolation outputFile "serialize")
    else if !exports.contains "decoder" then
      Except.error (GenError.contractViolation outputFile "decoder")
    else Except.ok none
  else Except.ok (some outputFile)

/-- `writeInterfaceImpl`: an existing interface/union scaffold must export
`dispatch`; a missing file is written. -/
def writeInterfaceImpl (env : FileSystemEnv) (outputFile : String) :
    Except GenError (Option String) :=
  if env.fileExists outputFile then
    if (env.exportsOf outputFile).contains "dispatch" then Except.ok none
    else Except.error (GenError.contractViolation outputFile "dispatch")
  else Except.ok (some outputFile)

/-- The scalar names driving `writeScalarImpls` (scalar types of the
canonical index). -/
def scalarImplNames (schema : Schema) : List String :=
  (namedTypesFromSchema schema).filter (fun model => isScalarNamedType schema model)

/-- The interface/union names driving `writeInterfaceImpls`. -/
def interfaceImplNames (schema : Schema) : List String :=
  (namedTypesFromSchema schema).filter (fun name => isUnionOrInterfaceType schema name)

/-- The object-type names driving `writeResolverImpls` and
`writeRootResolverImpl`. -/
def resolverImplNames (schema : Schema) : List String :=
  (namedTypesFromSchema schema).filter (fun model => isObjectNamedType schema model)

/-- The model-type names driving `writeModelsScaffold` (object types minus
root types). -/
def modelScaffoldNames (schema : Schema) : List String :=
  ((namedTypesFromSchema schema).filter (fun name => isObjectNamedType schema name)).filter
    (fun name => !ROOT_TYPES.contains name)

/-- `writeScalarImpls`: runs `writeScalarsIndex` (whose intended file is
always `index.js`) and one `writeScalarImpl` per scalar, then awaits
`checkOutputDir` on the scalars directory — but DISCARDS its boolean result:
the function's resolved value is `undefined` (modelled `none`), so an orphan
in the scalars directory never reaches the aggregator. -/
def writeScalarImpls (schema : Schema) (env : FileSystemEnv) (outputDir : String)
    (dirListing : List String) : Except GenError (Option Bool) :=
  let scalarNames := scalarImplNames schema
  let files := resolvePath outputDir "index.js" ::
    scalarNames.map (fun name => resolvePath outputDir (name ++ ".js"))
  match exceptMapM (fun name => writeScalarImpl env name
      (resolvePath outputDir (name ++ ".js"))) scalarNames with
  | Except.error e => Except.error e
  | Except.ok _ =>
    let _orphanFree := checkOutputDir outputDir dirListing jsFilePattern files
    Except.ok none

/-- `writeInterfaceImpls`: one `writeInterfaceImpl` per interface/union name,
collecting basenames, then RETURNS the `checkOutputDir` boolean. -/
def writeInterfaceImpls (schema : Schema) (env : FileSystemEnv) (outputDir : String)
    (dirListing : List String) : Except GenError (Option Bool) :=
  let interfaces := interfaceImplNames schema
  match exceptMapM (fun name => (writeInterfaceImpl env
      (resolvePath outputDir (name ++ ".js"))).map (fun _ => name ++ ".js")) interfaces with
  | Except.error e => Except.error e
  | Except.ok files =>
    Except.ok (some (checkOutputDir outputDir dirListing jsFilePattern files))

/-- `writeResolverImpls`: the root resolver index plus one
`writeResolverImpl` per object type (`writeResolverImpl` only tests
existence, it never throws), then RETURNS the `checkOutputDir` boolean. -/
def writeResolverImpls (schema : Schema) (_env : FileSystemEnv) (outputDir : String)
    (dirListing : List String) : Except GenError (Option Bool) :=
  let modelNames := resolverImplNames schema
  let files := resolvePath outputDir "index.js" ::
    modelNames.map (fun name => name ++ "Resolver.js")
  Except.ok (some (checkOutputDir outputDir dirListing resolverFilePattern files))

/-- The per-run directory state: the schema directory plus the listings of
the three multi-file output directories. -/
structure RunEnv : Type where
  fs : FileSystemEnv
  scalarsListing : List String := []
  interfacesListing : List String := []
  resolversListing : List String := []

/-- `runWithOptions`: run the six generation tasks against the same schema
(`writeResolverTypes`, `writeContextScaffold`, `writeModelsScaffold` resolve
`undefined` and never report a directory check), collect the settled results,
and exit `1` if any settled result is an explicit falsey value
(`rv === undefined || rv`), else `0`.  A thrown error propagates (handled by
`programExitCode` below). -/
def runWithOptions (schema : Schema) (env : RunEnv) (schemaDir : String) :
    Except GenError Nat :=
  match writeScalarImpls schema env.fs (resolvePath schemaDir "scalars")
      env.scalarsListing with
  | Except.error e => Except.error e
  | Except.ok r4 =>
    match writeInterfaceImpls schema env.fs (resolvePath schemaDir "interfaces")
        env.interfacesListing with
    | Except.error e => Except.error e
    | Except.ok r5 =>
      match writeResolverImpls schema env.fs (resolvePath schemaDir "resolvers")
          env.resolversListing with
      | Except.error e => Except.error e
      | Except.ok r6 =>
        let results : List (Option Bool) := [none, none, none, r4, r5, r6]
        Except.ok (if results.all (fun rv => rv.getD true) then 0 else 1)

/-- The process exit code: `run().catch(e => ... process.exit(1))` turns any
propagated error into exit code 1. -/
def programExitCode (schema : Schema) (env : RunEnv) (schemaDir : String) : Nat :=
  match runWithOptions schema env schemaDir with
  | Except.ok code => code
  | Except.error _ => 1

/-- Test fixture: an interface `Named` declaring a `name` field. -/
def ifaceNamed : GInterfaceData :=
  GInterfaceData.mk "Named" [GField.mk "name" (GType.scalar "String") []]

/-- Test fixture: an interface `Displayable` also declaring a `name` field. -/
def ifaceDisplayable : GInterfaceData :=
  GInterfaceData.mk "Displayable" [GField.mk "name" (GType.scalar "String") []]

/-- Test fixture: an Object implementing two interfaces that share the field
name `name`, and redeclaring it among its own fields. -/
def objWidget : GObjectData :=
  GObjectData.mk "Widget" [ifaceNamed, ifaceDisplayable]
    [GField.mk "name" (GType.scalar "String") []]

/-- Test fixture: an interface `Node` declaring an `id` field. -/
def ifaceNode : GInterfaceData :=
  GInterfaceData.mk "Node" [GField.mk "id" (GType.scalar "ID") []]

/-- Test fixture: an Object `User` implementing `Node`, redeclaring `id` and
adding a `name` field. -/
def objUser : GObjectData :=
  GObjectData.mk "User" [ifaceNode]
    [GField.mk "id" (GType.scalar "ID") [], GField.mk "name" (GType.scalar "String") []]

/-- The canonical type index as the spec describes it (for comparison with
`namedTypesFromSchema`): all named types except the reserved root type names
and the builtin scalar names, alphabetically sorted. -/
def canonicalTypeIndexSpec (schema : Schema) : List String :=
  sortByKey (fun n => n)
    (((schema.typeMap.map Prod.fst).filter (fun n => !ROOT_TYPES.contains n)).filter
      (fun n => !BUILTINS.contains n))

/-- Test fixture: a schema whose type map holds the root type `Query` and an
object type `User`. -/
def exSchemaRoots : Schema :=
  Schema.mk [("Query", GType.object (GObjectData.mk "Query" [] [])),
             ("User", GType.object (GObjectData.mk "User" [] []))]

/-- Test fixture: a schema with a union `U` whose members are declared in the
order `B`, `A` (reverse alphabetical). -/
def exSchemaUnion : Schema :=
  Schema.mk [("Query", GType.object (GObjectData.mk "Query" [] [])),
             ("A", GType.object (GObjectData.mk "A" [] [])),
             ("B", GType.object (GObjectData.mk "B" [] [])),
             ("U", GType.union "U" ["B", "A"])]

/-- Test fixture: a schema with an interface `I` implemented by objects `B`
and `A` (declared in reverse alphabetical order in the type map). -/
def exSchemaIface : Schema :=
  Schema.mk [("Query", GType.object (GObjectData.mk "Query" [] [])),
             ("I", GType.interfaceT (GInterfaceData.mk "I" [])),
             ("B", GType.object (GObjectData.mk "B" [GInterfaceData.mk "I" []] [])),
             ("A", GType.object (GObjectData.mk "A" [GInterfaceData.mk "I" []] []))]

/-- Test fixture: a schema with one custom scalar `Date`. -/
def exSchemaScalar : Schema :=
  Schema.mk [("Query", GType.object (GObjectData.mk "Query" [] [])),
             ("Date", GType.scalar "Date")]

/-- Test fixture: a schema containing an introspection type name. -/
def exSchemaIntrospection : Schema :=
  Schema.mk [("Query", GType.object (GObjectData.mk "Query" [] [])),
             ("__Schema", GType.object (GObjectData.mk "__Schema" [] [])),
             ("Date", GType.scalar "Date")]

/-- Test fixture: a fresh filesystem — no file exists, nothing exports
anything. -/
def exFreshFS : FileSystemEnv :=
  FileSystemEnv.mk (fun _ => false) (fun _ => [])

/-- Test fixture: a run whose scalars output directory contains a stray
generated-looking file `Old.js` that the run does not intend to produce. -/
def exRunEnvOrphan : RunEnv :=
  { fs := exFreshFS, scalarsListing := ["Old.js"] }

/-- Test fixture: a filesystem on which every file exists and exports exactly
the scalar type alias `DateTime` and `serialize` (no `decoder`). -/
def exScalarContractFS : FileSystemEnv :=
  FileSystemEnv.mk (fun _ => true) (fun _ => ["DateTime", "serialize"])

/-- A string containing no ASCII colon.  GraphQL names (`/[_A-Za-z][_0-9A-Za-z]*/`)
never contain `':'`; the rendered resolver-signature lines use the colon as
the separator between the field name and its type, so colon-freeness of
names makes the field name recoverable from a rendered line. -/
def colonFree (s : String) : Prop := ':' ∉ s.data

theorem jsEndsWith_iff (s p : String) : jsEndsWith s p = true ↔ ∃ a, s = a ++ p := by
  unfold jsEndsWith
  rw [List.isSuffixOf_iff_suffix]
  constructor
  · rintro ⟨pre, hpre⟩
    refine ⟨⟨pre⟩, ?_⟩
    apply String.ext
    rw [String.data_append]
    exact hpre.symm
  · rintro ⟨a, rfl⟩
    rw [String.data_append]
    exact List.suffix_append _ _

theorem jsEndsWith_append (a p : String) : jsEndsWith (a ++ p) p = true :=
  (jsEndsWith_iff _ _).mpr ⟨a, rfl⟩

theorem nonOptional_append (a : String) : nonOptional (a ++ " | null") = Except.ok a := by
  unfold nonOptional
  rw [if_pos (jsEndsWith_append a " | null")]
  congr 1
  apply String.ext
  show ((a ++ " | null") : String).data.take _ = a.data
  rw [String.data_append, List.length_append]
  show (a.data ++ (" | null" : String).data).take (a.data.length + 7 - 7) = a.data
  rw [Nat.add_sub_cancel]
  exact List.take_left a.data _

theorem FLOW_SCALARS_endsWith (name v : String) (h : FLOW_SCALARS name = some v) :
    jsEndsWith v " | null" = true := by
  unfold FLOW_SCALARS at h
  split at h <;> simp_all <;> subst h <;> decide

/-- C1.  For every schema type node `T` that is not itself a NonNull wrapper,
the output-position rendering of `T`, when it succeeds, ends with the exact
nullable-sentinel suffix `" | null"`; and rendering `NonNull(T)` strips
exactly that suffix from the rendering of `T` — succeeding with the prefix
when the inner rendering ends with the suffix, and failing with the
`MalformedNullableExpr` error otherwise. -/
theorem toFlowOutputTypeRef_nullable_sentinel (T : GType) :
    (T.isNonNullType = false →
      ∀ s, toFlowOutputTypeRef T = Except.ok s → jsEndsWith s " | null" = true)
  ∧ (∀ s, toFlowOutputTypeRef T = Except.ok s →
      (jsEndsWith s " | null" = true →
        ∃ a, s = a ++ " | null" ∧ toFlowOutputTypeRef (GType.nonNull T) = Except.ok a)
    ∧ (jsEndsWith s " | null" = false →
        toFlowOutputTypeRef (GType.nonNull T) =
          Except.error (GenError.malformedNullableExpr s))) := by
  have hstep : toFlowOutputTypeRef (GType.nonNull T) =
      match toFlowOutputTypeRef T with
      | Except.ok baseType => nonOptional baseType
      | Except.error e => Except.error e := rfl
  constructor
  · intro hT s hs
    cases T with
    | scalar name =>
      unfold toFlowOutputTypeRef at hs
      cases h : FLOW_SCALARS name with
      | some v =>
        rw [h] at hs
        simp only [Option.getD_some] at hs
        cases hs
        exact FLOW_SCALARS_endsWith name s h
      | none =>
        rw [h] at hs
        simp only [Option.getD_none] at hs
        cases hs
        exact jsEndsWith_append _ _
    | listT ofType =>
      unfold toFlowOutputTypeRef at hs
      cases h : toFlowOutputTypeRef ofType with
      | ok inner =>
        rw [h] at hs
        cases hs
        refine (jsEndsWith_iff _ _).mpr ⟨"Array<" ++ inner ++ ">", ?_⟩
        apply String.ext
        simp only [String.data_append]
        simp [List.append_assoc]
      | error e => rw [h] at hs; cases hs
    | nonNull ofType => simp [GType.isNonNullType] at hT
    | enum name values =>
      unfold toFlowOutputTypeRef at hs
      by_cases h : (GType.enum name values).nameOrEmpty = ""
      · rw [if_pos h] at hs; cases hs
      · rw [if_neg h] at hs; cases hs; exact jsEndsWith_append _ _
    | object obj =>
      unfold toFlowOutputTypeRef at hs
      by_cases h : (GType.object obj).nameOrEmpty = ""
      · rw [if_pos h] at hs; cases hs
      · rw [if_neg h] at hs; cases hs; exact jsEndsWith_append _ _
    | interfaceT iface =>
      unfold toFlowOutputTypeRef at hs
      by_cases h : (GType.interfaceT iface).nameOrEmpty = ""
      · rw [if_pos h] at hs; cases hs
      · rw [if_neg h] at hs; cases hs; exact jsEndsWith_append _ _
    | union name members =>
      unfold toFlowOutputTypeRef at hs
      by_cases h : (GType.union name members).nameOrEmpty = ""
      · rw [if_pos h] at hs; cases hs
      · rw [if_neg h] at hs; cases hs; exact jsEndsWith_append _ _
    | inputObject name fields =>
      unfold toFlowOutputTypeRef at hs
      by_cases h : (GType.inputObject name fields).nameOrEmpty = ""
      · rw [if_pos h] at hs; cases hs
      · rw [if_neg h] at hs; cases hs; exact jsEndsWith_append _ _
  · intro s hs
    constructor
    · intro hend
      obtain ⟨a, rfl⟩ := (jsEndsWith_iff _ _).mp hend
      exact ⟨a, rfl, by rw [hstep, hs]; exact nonOptional_append a⟩
    · intro hend
      rw [hstep, hs]
      show nonOptional s = Except.error (GenError.malformedNullableExpr s)
      unfold nonOptional
      rw [if_neg (by rw [hend]; exact Bool.false_ne_true)]

/-- Witness for C1 at the builtin scalar `String`. -/
theorem toFlowOutputTypeRef_nullable_sentinel_witness :
    (jsEndsWith "string | null" " | null" = true)
  ∧ (∃ a, "string | null" = a ++ " | null" ∧
      toFlowOutputTypeRef (GType.nonNull (GType.scalar "String")) = Except.ok a) := by
  have h := toFlowOutputTypeRef_nullable_sentinel (GType.scalar "String")
  have h1 := h.1 rfl "string | null" rfl
  exact ⟨h1, (h.2 "string | null" rfl).1 h1⟩

/-- C5 (amended).  With no matching handler and no default handler supplied,
the output-position dispatcher fails with the `UnhandledVariant` error naming
the node; the input-position dispatcher instead invokes the absent default
handler, so it fails with the runtime's generic
`TypeError: dispatchers.default is not a function`, which does not name the
node. -/
theorem dispatch_unhandled_variant (value : GType) (dO : ODispatchers α)
    (dI : IDispatchers β)
    (hO : odispatchHandlerFor value dO = none)
    (hOd : dO.defaultHandler = none)
    (hI : idispatchHandlerFor value dI = none)
    (hId : dI.defaultHandler = none) :
    odispatch value dO = Except.error (GenError.unhandledVariant value)
  ∧ idispatch value dI =
      Except.error (GenError.jsTypeError "dispatchers.default is not a function") := by
  constructor
  · unfold odispatch
    rw [hO, hOd]
  · unfold idispatch
    rw [hI, hId]

/-- Witness for C5 at a scalar node and empty dispatcher tables. -/
theorem dispatch_unhandled_variant_witness :
    odispatch (GType.scalar "Date") ({} : ODispatchers String) =
      Except.error (GenError.unhandledVariant (GType.scalar "Date"))
  ∧ idispatch (GType.scalar "Date") ({} : IDispatchers String) =
      Except.error (GenError.jsTypeError "dispatchers.default is not a function") :=
  dispatch_unhandled_variant (GType.scalar "Date") {} {} rfl rfl rfl rfl

/-- Counterexample to C5 as stated: dispatching a node with no matching
handler and no default through `idispatch` does fail, but with the generic
`TypeError` raised by calling the absent default handler — not with the
`UnhandledVariant` error naming the node, which is what `odispatch` produces
in the same situation. -/
theorem idispatch_unhandled_counterexample :
    idispatch (GType.scalar "Date") ({} : IDispatchers String) =
      Except.error (GenError.jsTypeError "dispatchers.default is not a function")
  ∧ (Except.error (GenError.jsTypeError "dispatchers.default is not a function")
      : Except GenError String) ≠
      Except.error (GenError.unhandledVariant (GType.scalar "Date")) := by
  refine ⟨rfl, ?_⟩
  intro h
  injection h with h2
  exact GenError.noConfusion h2

/-- C8.  When a scalar-implementation scaffold file already exists and its
exported identifiers (as reported by the export-scanner) lack any required
export — the type alias named after the scalar, `serialize`, or `decoder` —
the run fails with the contract-violation error naming that file and a
missing symbol, and the existing file is not written (the error outcome
carries no written path); in particular a file exporting the alias and
`serialize` but missing `decoder` fails naming `"decoder"`. -/
theorem writeScalarImpl_contract (env : FileSystemEnv) (name outputFile : String)
    (hex : env.fileExists outputFile = true) :
    ((name ∉ env.exportsOf outputFile ∨
      "serialize" ∉ env.exportsOf outputFile ∨
      "decoder" ∉ env.exportsOf outputFile) →
      ∃ sym, sym ∈ [name, "serialize", "decoder"] ∧
        sym ∉ env.exportsOf outputFile ∧
        writeScalarImpl env name outputFile =
          Except.error (GenError.contractViolation outputFile sym))
  ∧ (name ∈ env.exportsOf outputFile →
      "serialize" ∈ env.exportsOf outputFile →
      "decoder" ∉ env.exportsOf outputFile →
      writeScalarImpl env name outputFile =
        Except.error (GenError.contractViolation outputFile "decoder")) := by
  constructor
  · intro hmiss
    by_cases h1 : name ∈ env.exportsOf outputFile
    · by_cases h2 : "serialize" ∈ env.exportsOf outputFile
      · by_cases h3 : "decoder" ∈ env.exportsOf outputFile
        · rcases hmiss with h | h | h <;> exact absurd (by assumption) h
        · refine ⟨"decoder", by simp, h3, ?_⟩
          unfold writeScalarImpl
          simp [hex, h1, h2, h3]
      · refine ⟨"serialize", by simp, h2, ?_⟩
        unfold writeScalarImpl
        simp [hex, h1, h2]
    · refine ⟨name, by simp, h1, ?_⟩
      unfold writeScalarImpl
      simp [hex, h1]
  · intro h1 h2 h3
    unfold writeScalarImpl
    simp [hex, h1, h2, h3]

/-- Witness for C8: an existing scalar file for scalar `DateTime` exporting
the alias and `serialize` but not `decoder`. -/
theorem writeScalarImpl_contract_witness :
    writeScalarImpl exScalarContractFS "DateTime" "/app/scalars/DateTime.js" =
      Except.error (GenError.contractViolation "/app/scalars/DateTime.js" "decoder") :=
  (writeScalarImpl_contract exScalarContractFS "DateTime" "/app/scalars/DateTime.js"
    rfl).2 (by simp [exScalarContractFS]) (by simp [exScalarContractFS])
    (by simp [exScalarContractFS])

/-- C9.  The orphan check over an output directory is one-sided: it returns
`true` whenever the directory contains no pattern-matching file outside the
expected set, with no requirement whatsoever that the expected files be
present in the directory — missing expected files are never detected. -/
theorem checkOutputDir_one_sided (dir : String) (dirListing : List String)
    (pattern : String → Bool) (expectedFiles : List String)
    (h : ∀ f ∈ dirListing, pattern (resolvePath dir f) = true →
        resolvePath dir f ∈ expectedFiles.map (fun g => resolvePath dir g)) :
    checkOutputDir dir dirListing pattern expectedFiles = true := by
  have hnil : ((dirListing.map (fun f => resolvePath dir f)).filter pattern).filter
      (fun f => !(expectedFiles.map (fun g => resolvePath dir g)).contains f) = [] := by
    rw [List.filter_eq_nil_iff]
    intro a ha
    rw [List.mem_filter] at ha
    obtain ⟨hmem, hpat⟩ := ha
    rw [List.mem_map] at hmem
    obtain ⟨f, hf, rfl⟩ := hmem
    have hin := h f hf hpat
    simp [List.elem_iff, hin]
  have hrw : checkOutputDir dir dirListing pattern expectedFiles =
      ((sortByKey (fun f => f)
        (((dirListing.map (fun f => resolvePath dir f)).filter pattern).filter
          (fun f => !(expectedFiles.map (fun g => resolvePath dir g)).contains f))).length
        == 0) := rfl
  rw [hrw, hnil]
  rfl

/-- Witness for C9: an empty directory passes the check even though the
expected file `A.js` is absent from it. -/
theorem checkOutputDir_one_sided_witness :
    checkOutputDir "/out" [] jsFilePattern ["A.js"] = true :=
  checkOutputDir_one_sided "/out" [] jsFilePattern ["A.js"] (by intro f hf; cases hf)

theorem jsStrLeData_total : ∀ l1 l2 : List Char,
    jsStrLeData l1 l2 = true ∨ jsStrLeData l2 l1 = true := by
  intro l1
  induction l1 with
  | nil => intro l2; left; rfl
  | cons a as ih =>
    intro l2
    cases l2 with
    | nil => right; rfl
    | cons b bs =>
      by_cases hab : a.toNat < b.toNat
      · left; unfold jsStrLeData; rw [if_pos hab]
      · by_cases hba : b.toNat < a.toNat
        · right; unfold jsStrLeData; rw [if_pos hba]
        · rcases ih bs with h | h
          · left; unfold jsStrLeData; rw [if_neg hab, if_neg hba]; exact h
          · right; unfold jsStrLeData; rw [if_neg hba, if_neg hab]; exact h

theorem jsStrLeData_trans : ∀ l1 l2 l3 : List Char,
    jsStrLeData l1 l2 = true → jsStrLeData l2 l3 = true → jsStrLeData l1 l3 = true := by
  intro l1
  induction l1 with
  | nil => intro l2 l3 _ _; rfl
  | cons a as ih =>
    intro l2 l3 h12 h23
    cases l2 with
    | nil => simp [jsStrLeData] at h12
    | cons b bs =>
      cases l3 with
      | nil => simp [jsStrLeData] at h23
      | cons c cs =>
        have nab : a.toNat ≤ b.toNat := by
          by_contra hc
          push_neg at hc
          unfold jsStrLeData at h12
          rw [if_neg (by omega), if_pos (by omega)] at h12
          simp at h12
        have nbc : b.toNat ≤ c.toNat := by
          by_contra hc
          push_neg at hc
          unfold jsStrLeData at h23
          rw [if_neg (by omega), if_pos (by omega)] at h23
          simp at h23
        unfold jsStrLeData
        by_cases hac : a.toNat < c.toNat
        · rw [if_pos hac]
        · have heq1 : a.toNat = b.toNat := by omega
          have heq2 : b.toNat = c.toNat := by omega
          rw [if_neg hac, if_neg (by omega)]
          unfold jsStrLeData at h12 h23
          rw [if_neg (by omega), if_neg (by omega)] at h12
          rw [if_neg (by omega), if_neg (by omega)] at h23
          exact ih bs cs h12 h23

theorem jsStrLe_total (a b : String) : jsStrLe a b = true ∨ jsStrLe b a = true :=
  jsStrLeData_total a.data b.data

theorem jsStrLe_trans (a b c : String) :
    jsStrLe a b = true → jsStrLe b c = true → jsStrLe a c = true :=
  jsStrLeData_trans a.data b.data c.data

instance sortByKeyRelTotal (key : α → String) :
    IsTotal α (fun a b => jsStrLe (key a) (key b) = true) :=
  ⟨fun a b => jsStrLe_total (key a) (key b)⟩

instance sortByKeyRelTrans (key : α → String) :
    IsTrans α (fun a b => jsStrLe (key a) (key b) = true) :=
  ⟨fun a b c => jsStrLe_trans (key a) (key b) (key c)⟩

theorem sortByKey_sorted (key : α → String) (l : List α) :
    List.Sorted (fun a b => jsStrLe (key a) (key b) = true) (sortByKey key l) :=
  List.sorted_insertionSort _ l

theorem sortByKey_perm (key : α → String) (l : List α) :
    (sortByKey key l).Perm l :=
  List.perm_insertionSort _ l

/-- C3 (amended).  The canonical type index contains exactly the schema's
named types excluding the introspection names (prefix `"__"`) and the five
reserved builtin scalar names — the two reserved root type names `"Query"`
and `"Mutation"` are NOT excluded — sorted alphabetically; and it is
schema-deterministic: recomputing it over the same type map yields an
identical index. -/
theorem namedTypesFromSchema_canonical (schema : Schema) :
    (∀ n, n ∈ namedTypesFromSchema schema ↔
      (n ∈ schema.typeMap.map Prod.fst ∧ jsStartsWith n "__" = false ∧ n ∉ BUILTINS))
  ∧ List.Sorted (fun a b => jsStrLe a b = true) (namedTypesFromSchema schema)
  ∧ (∀ s2 : Schema, s2.typeMap = schema.typeMap →
      namedTypesFromSchema s2 = namedTypesFromSchema schema) := by
  refine ⟨?_, ?_, ?_⟩
  · intro n
    unfold namedTypesFromSchema
    rw [(sortByKey_perm _ _).mem_iff, List.mem_filter, List.mem_filter]
    simp [List.elem_iff, and_assoc]
  · exact sortByKey_sorted _ _
  · intro s2 h
    unfold namedTypesFromSchema
    rw [h]

/-- Counterexample to C3 as stated: the reserved root type name `"Query"` is
a member of the computed canonical index, which therefore differs from the
spec-described index that excludes the root type names. -/
theorem namedTypesFromSchema_counterexample :
    namedTypesFromSchema exSchemaRoots = ["Query", "User"]
  ∧ canonicalTypeIndexSpec exSchemaRoots = ["User"]
  ∧ "Query" ∈ namedTypesFromSchema exSchemaRoots
  ∧ "Query" ∈ ROOT_TYPES := by
  refine ⟨by decide, by decide, by decide, by decide⟩

/-- Witness for C3 at the two-type fixture schema. -/
theorem namedTypesFromSchema_canonical_witness :
    "User" ∈ namedTypesFromSchema exSchemaRoots
  ∧ List.Sorted (fun a b => jsStrLe a b = true) (namedTypesFromSchema exSchemaRoots)
  ∧ namedTypesFromSchema (Schema.mk exSchemaRoots.typeMap) =
      namedTypesFromSchema exSchemaRoots := by
  have h := namedTypesFromSchema_canonical exSchemaRoots
  exact ⟨(h.1 "User").mpr (by decide), h.2.1, h.2.2 (Schema.mk exSchemaRoots.typeMap) rfl⟩

theorem namedTypesFromSchema_sorted (schema : Schema) :
    List.Sorted (fun a b => jsStrLe a b = true) (namedTypesFromSchema schema) :=
  sortByKey_sorted _ _

/-- C4 (amended).  For Interface types, the members of the concrete-subtype
computation follow the canonical type index order (they form a sorted
sublist of the index); for Union types, the members are the union's declared
member types in declaration order, not canonical index order. -/
theorem getConcreteSubtypes_order (schema : Schema) (name : String) :
    (∀ uname members, schemaGetType schema name = some (GType.union uname members) →
      getConcreteSubtypes schema name = members)
  ∧ ((∀ uname members, schemaGetType schema name ≠ some (GType.union uname members)) →
      List.Sorted (fun a b => jsStrLe a b = true) (getConcreteSubtypes schema name)
      ∧ (getConcreteSubtypes schema name).Sublist (namedTypesFromSchema schema)) := by
  constructor
  · intro uname members h
    unfold getConcreteSubtypes
    rw [h]
  · intro h
    have hfilter : getConcreteSubtypes schema name =
        (namedTypesFromSchema schema).filter (fun typename =>
          match schemaGetType schema typename with
          | some (GType.object obj) => obj.interfaces.any (fun iface => iface.name == name)
          | _ => false) := by
      unfold getConcreteSubtypes
      cases hg : schemaGetType schema name with
      | none => rfl
      | some t =>
        cases t with
        | union uname members => exact absurd hg (h uname members)
        | scalar _ => rfl
        | enum _ _ => rfl
        | object _ => rfl
        | interfaceT _ => rfl
        | inputObject _ _ => rfl
        | listT _ => rfl
        | nonNull _ => rfl
    rw [hfilter]
    exact ⟨List.Pairwise.filter _ (namedTypesFromSchema_sorted schema),
      List.filter_sublist _⟩

/-- Counterexample to C4 as stated: a Union with member types declared in the
order `B`, `A` keeps declaration order in the emitted members, which is not
the canonical (alphabetical) index order. -/
theorem getConcreteSubtypes_union_counterexample :
    getConcreteSubtypes exSchemaUnion "U" = ["B", "A"]
  ∧ (namedTypesFromSchema exSchemaUnion).filter
      (fun n => ["B", "A"].contains n) = ["A", "B"]
  ∧ (["B", "A"] : List String) ≠ ["A", "B"] :=
  ⟨by decide, by decide, by decide⟩

/-- Witness for C4: the union fixture keeps declaration order; the interface
fixture's concrete subtypes are sorted and a sublist of the canonical
index. -/
theorem getConcreteSubtypes_order_witness :
    getConcreteSubtypes exSchemaUnion "U" = ["B", "A"]
  ∧ List.Sorted (fun a b => jsStrLe a b = true) (getConcreteSubtypes exSchemaIface "I")
  ∧ (getConcreteSubtypes exSchemaIface "I").Sublist (namedTypesFromSchema exSchemaIface) := by
  have h1 := (getConcreteSubtypes_order exSchemaUnion "U").1 "U" ["B", "A"] rfl
  have h2 := (getConcreteSubtypes_order exSchemaIface "I").2 (by
    intro uname members hc
    have hc2 : some (GType.interfaceT (GInterfaceData.mk "I" [])) =
        some (GType.union uname members) := hc
    injection hc2 with hc3
    exact GType.noConfusion hc3)
  exact ⟨h1, h2.1, h2.2⟩

/-- C10.  The canonical type index excludes every type whose name starts with
`"__"`, and so do all the name lists derived from it that drive emitted
definitions and scaffold files (scalar implementations, interface/union
implementations, resolver implementations, model scaffold entries): no
introspection type ever receives an emitted artifact. -/
theorem introspection_excluded (schema : Schema) (n : String)
    (h : jsStartsWith n "__" = true) :
    n ∉ namedTypesFromSchema schema
  ∧ n ∉ scalarImplNames schema
  ∧ n ∉ interfaceImplNames schema
  ∧ n ∉ resolverImplNames schema
  ∧ n ∉ modelScaffoldNames schema := by
  have h0 : n ∉ namedTypesFromSchema schema := by
    intro hmem
    unfold namedTypesFromSchema at hmem
    rw [(sortByKey_perm _ _).mem_iff, List.mem_filter] at hmem
    obtain ⟨hm1, _⟩ := hmem
    rw [List.mem_filter] at hm1
    obtain ⟨_, hp⟩ := hm1
    rw [h] at hp
    simp at hp
  refine ⟨h0, ?_, ?_, ?_, ?_⟩
  · intro hmem
    unfold scalarImplNames at hmem
    exact h0 ((List.filter_sublist _).subset hmem)
  · intro hmem
    unfold interfaceImplNames at hmem
    exact h0 ((List.filter_sublist _).subset hmem)
  · intro hmem
    unfold resolverImplNames at hmem
    exact h0 ((List.filter_sublist _).subset hmem)
  · intro hmem
    unfold modelScaffoldNames at hmem
    exact h0 ((List.filter_sublist _).subset ((List.filter_sublist _).subset hmem))

/-- Witness for C10 at a schema containing `__Schema`. -/
theorem introspection_excluded_witness :
    jsStartsWith "__Schema" "__" = true
  ∧ "__Schema" ∉ namedTypesFromSchema exSchemaIntrospection :=
  ⟨by decide,
   (introspection_excluded exSchemaIntrospection "__Schema" (by decide)).1⟩

/-- C7 evidence (code bug).  `writeScalarImpls` computes the orphan check for
the scalars directory — which is `false` here, the listing holding the
unintended `Old.js` — but discards the boolean and resolves `undefined`
(`none`), so the aggregated run exits with code 0 despite the orphan, while
the sibling interface/resolver categories do return their check. -/
theorem writeScalarImpls_orphan_dropped :
    checkOutputDir "/app/scalars" ["Old.js"] jsFilePattern
      (resolvePath "/app/scalars" "index.js" ::
        (scalarImplNames exSchemaScalar).map
          (fun name => resolvePath "/app/scalars" (name ++ ".js"))) = false
  ∧ writeScalarImpls exSchemaScalar exFreshFS "/app/scalars" ["Old.js"] = Except.ok none
  ∧ programExitCode exSchemaScalar exRunEnvOrphan "/app" = 0 :=
  ⟨by decide, rfl, by decide⟩

theorem find?_mapSetFun (m : List (String × α)) (k : String) (v : α) :
    List.find? (fun p => p.1 == k) (m.map (fun p => if p.1 == k then (k, v) else p)) =
      if (m.any fun p => p.1 == k) = true then some (k, v) else none := by
  induction m with
  | nil => rfl
  | cons p m ih =>
    rw [List.map_cons]
    by_cases hp : (p.1 == k) = true
    · rw [if_pos hp,
        @List.find?_cons_of_pos _ (fun p => p.1 == k) (k, v) _ (beq_self_eq_true k),
        if_pos (by rw [List.any_cons, hp]; rfl)]
    · have hp2 : (p.1 == k) = false := by revert hp; cases (p.1 == k) <;> simp
      rw [if_neg hp, @List.find?_cons_of_neg _ (fun p => p.1 == k) p _ hp, ih,
        List.any_cons, hp2]
      rfl

theorem mapGet_mapSet_self (m : List (String × α)) (k : String) (v : α) :
    mapGet (mapSet m k v) k = some v := by
  unfold mapGet mapSet
  by_cases h : (m.any fun p => p.1 == k) = true
  · rw [if_pos h, find?_mapSetFun, if_pos h]
    rfl
  · rw [if_neg h, List.find?_append]
    have hnone : m.find? (fun p => p.1 == k) = none := by
      rw [List.find?_eq_none]
      intro x hx hpx
      exact h (List.any_eq_true.mpr ⟨x, hx, hpx⟩)
    rw [hnone,
      @List.find?_cons_of_pos _ (fun p => p.1 == k) (k, v) _ (beq_self_eq_true k)]
    rfl

theorem mapSet_mapSet (m : List (String × α)) (k : String) (v w : α) :
    mapSet (mapSet m k v) k w = mapSet m k w := by
  by_cases h : (m.any fun p => p.1 == k) = true
  · have hkeys : ((m.map (fun p => if p.1 == k then (k, v) else p)).any
        fun p => p.1 == k) = true := by
      rw [List.any_map]
      rcases List.any_eq_true.mp h with ⟨x, hx, hpx⟩
      refine List.any_eq_true.mpr ⟨x, hx, ?_⟩
      show ((if x.1 == k then (k, v) else x).1 == k) = true
      rw [if_pos hpx]
      exact beq_self_eq_true k
    unfold mapSet
    rw [if_pos h, if_pos hkeys, if_pos h, List.map_map]
    apply List.map_congr_left
    intro p _
    show (if ((if (p.1 == k) = true then (k, v) else p).1 == k) = true then (k, w)
      else (if (p.1 == k) = true then (k, v) else p)) =
      (if (p.1 == k) = true then (k, w) else p)
    by_cases hp : (p.1 == k) = true
    · rw [if_pos hp, if_pos hp]
      rw [if_pos (beq_self_eq_true k)]
    · rw [if_neg hp, if_neg hp]
  · have hkeys2 : ((m ++ [(k, v)]).any fun p => p.1 == k) = true :=
      List.any_eq_true.mpr ⟨(k, v), by simp, beq_self_eq_true k⟩
    unfold mapSet
    rw [if_neg h, if_pos hkeys2, if_neg h, List.map_append]
    have hid : (m.map fun p => if p.1 == k then (k, w) else p) = m := by
      refine (List.map_congr_left ?_).trans (List.map_id m)
      intro p hp
      have hpf : ¬ ((p.1 == k) = true) := by
        intro hpk
        exact h (List.any_eq_true.mpr ⟨p, hp, hpk⟩)
      rw [if_neg hpf]
      rfl
    rw [hid, List.map_cons]
    rw [if_pos (beq_self_eq_true k)]
    rfl

theorem setAdd_idem (s : List String) (x : String) :
    setAdd (setAdd s x) x = setAdd s x := by
  unfold setAdd
  by_cases h : s.contains x = true
  · rw [if_pos h, if_pos h]
  · rw [if_neg h, if_pos (by
      refine List.elem_iff.mpr ?_
      exact List.mem_append.mpr (Or.inr (by simp)))]

theorem mem_setAdd_self (s : List String) (x : String) : x ∈ setAdd s x := by
  unfold setAdd
  by_cases h : s.contains x = true
  · rw [if_pos h]
    exact List.elem_iff.mp h
  · rw [if_neg h]
    exact List.mem_append.mpr (Or.inr (by simp))

theorem mem_setAdd_of_mem (s : List String) (x y : String) (h : y ∈ s) :
    y ∈ setAdd s x := by
  unfold setAdd
  by_cases hc : s.contains x = true
  · rw [if_pos hc]
    exact h
  · rw [if_neg hc]
    exact List.mem_append.mpr (Or.inl h)

theorem setAdd_nodup (s : List String) (x : String) (h : s.Nodup) :
    (setAdd s x).Nodup := by
  unfold setAdd
  by_cases hc : s.contains x = true
  · rw [if_pos hc]
    exact h
  · rw [if_neg hc]
    refine List.Nodup.append h (List.nodup_singleton x) ?_
    intro a ha hax
    rw [List.mem_singleton] at hax
    subst hax
    exact hc (List.elem_iff.mpr ha)

theorem namedIdentifiersOf_addNamedImport (mb : ModuleBuilder) (identifier from_ : String) :
    (mb.addNamedImport identifier from_).namedIdentifiersOf from_ =
      setAdd (mb.namedIdentifiersOf from_) identifier := by
  show (mapGet (mapSet mb.namedImports from_
      (setAdd ((mapGet mb.namedImports from_).getD []) identifier)) from_).getD [] = _
  rw [mapGet_mapSet_self]
  rfl

theorem addNamedImport_idem (mb : ModuleBuilder) (identifier from_ : String) :
    (mb.addNamedImport identifier from_).addNamedImport identifier from_ =
      mb.addNamedImport identifier from_ := by
  simp only [ModuleBuilder.addNamedImport, mapGet_mapSet_self, Option.getD_some,
    setAdd_idem, mapSet_mapSet]

theorem keys_mapSet (m : List (String × α)) (k : String) (v : α) :
    (mapSet m k v).map Prod.fst =
      if (m.any fun p => p.1 == k) = true then m.map Prod.fst
      else m.map Prod.fst ++ [k] := by
  unfold mapSet
  by_cases h : (m.any fun p => p.1 == k) = true
  · rw [if_pos h, if_pos h, List.map_map]
    apply List.map_congr_left
    intro p _
    show (Prod.fst ∘ fun p => if (p.1 == k) = true then (k, v) else p) p = p.1
    by_cases hp : (p.1 == k) = true
    · show (if (p.1 == k) = true then (k, v) else p).1 = p.1
      rw [if_pos hp]
      exact (eq_of_beq hp).symm
    · show (if (p.1 == k) = true then (k, v) else p).1 = p.1
      rw [if_neg hp]
  · rw [if_neg h, if_neg h, List.map_append]
    rfl

theorem count_keys_addNamedImport (mb : ModuleBuilder) (identifier from_ : String)
    (hkeys : (mb.namedImports.map Prod.fst).Nodup) :
    ((mb.addNamedImport identifier from_).namedImports.map Prod.fst).count from_ = 1 := by
  show ((mapSet mb.namedImports from_ _).map Prod.fst).count from_ = 1
  rw [keys_mapSet]
  by_cases h : (mb.namedImports.any fun p => p.1 == from_) = true
  · rw [if_pos h]
    rcases List.any_eq_true.mp h with ⟨p, hp, hpk⟩
    exact List.count_eq_one_of_mem hkeys (List.mem_map.mpr ⟨p, hp, eq_of_beq hpk⟩)
  · rw [if_neg h, List.count_append]
    have h0 : (mb.namedImports.map Prod.fst).count from_ = 0 := by
      rw [List.count_eq_zero]
      intro hmem
      rcases List.mem_map.mp hmem with ⟨p, hp, hpf⟩
      exact h (List.any_eq_true.mpr ⟨p, hp, beq_iff_eq.mpr hpf⟩)
    rw [h0]
    simp

instance : IsTotal (Nat × String × String) importEntryLe := ⟨by
  intro a b
  unfold importEntryLe
  rcases Nat.lt_trichotomy a.1 b.1 with h | h | h
  · exact Or.inl (Or.inl h)
  · rcases jsStrLe_total (jsToLower a.2.1) (jsToLower b.2.1) with h2 | h2
    · exact Or.inl (Or.inr ⟨h, h2⟩)
    · exact Or.inr (Or.inr ⟨h.symm, h2⟩)
  · exact Or.inr (Or.inl h)⟩

instance : IsTrans (Nat × String × String) importEntryLe := ⟨by
  intro a b c hab hbc
  unfold importEntryLe at hab hbc ⊢
  rcases hab with h1 | ⟨h1, h1'⟩ <;> rcases hbc with h2 | ⟨h2, h2'⟩
  · exact Or.inl (by omega)
  · exact Or.inl (by omega)
  · exact Or.inl (by omega)
  · exact Or.inr ⟨h1.trans h2, jsStrLe_trans _ _ _ h1' h2'⟩⟩

theorem sortImportEntries_sorted (l : List (Nat × String × String)) :
    List.Sorted importEntryLe (sortImportEntries l) :=
  List.sorted_insertionSort _ l

theorem namedImportGroup_ordered (mb : ModuleBuilder) :
    ((sortImportEntries mb.iterImports).filter (fun t => t.1 == 1)).Pairwise
      (fun a b => jsStrLe (jsToLower a.2.1) (jsToLower b.2.1) = true) := by
  refine List.Pairwise.imp_of_mem ?_
    (List.Pairwise.filter _ (sortImportEntries_sorted mb.iterImports))
  intro a b ha hb hab
  have ha1 : a.1 = 1 := eq_of_beq (List.mem_filter.mp ha).2
  have hb1 : b.1 = 1 := eq_of_beq (List.mem_filter.mp hb).2
  rcases hab with h | h
  · exact absurd h (by omega)
  · exact h.2

/-- C6.  Registering the same named-import identifier for the same source
module any number of times is idempotent and yields exactly one occurrence of
that identifier among the module's serialized import identifiers;
registering two distinct identifiers for the same module yields a single
named-import map entry (hence one combined import line) whose identifier
list is sorted case-insensitively and holds each identifier exactly once;
and in serialized output the named-import group's entries are ordered
case-insensitively by each entry's sort key, the line's first identifier. -/
theorem moduleBuilder_named_imports (mb : ModuleBuilder) (id1 id2 from_ : String)
    (hset : (mb.namedIdentifiersOf from_).Nodup)
    (hkeys : (mb.namedImports.map Prod.fst).Nodup)
    (_hne : id1 ≠ id2) :
    ((mb.addNamedImport id1 from_).addNamedImport id1 from_ = mb.addNamedImport id1 from_)
  ∧ (sortByKey jsToLower ((mb.addNamedImport id1 from_).namedIdentifiersOf from_)).count
      id1 = 1
  ∧ ((((mb.addNamedImport id1 from_).addNamedImport id2 from_).namedImports.map
      Prod.fst).count from_ = 1)
  ∧ (sortByKey jsToLower
      (((mb.addNamedImport id1 from_).addNamedImport id2 from_).namedIdentifiersOf
        from_)).count id1 = 1
  ∧ (sortByKey jsToLower
      (((mb.addNamedImport id1 from_).addNamedImport id2 from_).namedIdentifiersOf
        from_)).count id2 = 1
  ∧ (sortByKey jsToLower
      (((mb.addNamedImport id1 from_).addNamedImport id2 from_).namedIdentifiersOf
        from_)).Pairwise (fun a b => jsStrLe (jsToLower a) (jsToLower b) = true)
  ∧ ((sortImportEntries mb.iterImports).filter (fun t => t.1 == 1)).Pairwise
      (fun a b => jsStrLe (jsToLower a.2.1) (jsToLower b.2.1) = true) := by
  have hones : ((mb.addNamedImport id1 from_).addNamedImport id2 from_).namedIdentifiersOf
      from_ = setAdd (setAdd (mb.namedIdentifiersOf from_) id1) id2 := by
    rw [namedIdentifiersOf_addNamedImport, namedIdentifiersOf_addNamedImport]
  have hnodup2 : (setAdd (setAdd (mb.namedIdentifiersOf from_) id1) id2).Nodup :=
    setAdd_nodup _ _ (setAdd_nodup _ _ hset)
  have hkeys1 : ((mb.addNamedImport id1 from_).namedImports.map Prod.fst).Nodup := by
    show ((mapSet mb.namedImports from_ _).map Prod.fst).Nodup
    rw [keys_mapSet]
    by_cases h : (mb.namedImports.any fun p => p.1 == from_) = true
    · rw [if_pos h]
      exact hkeys
    · rw [if_neg h]
      refine List.Nodup.append hkeys (List.nodup_singleton from_) ?_
      intro a ha hax
      rw [List.mem_singleton] at hax
      subst hax
      rcases List.mem_map.mp ha with ⟨p, hp, hpf⟩
      exact h (List.any_eq_true.mpr ⟨p, hp, beq_iff_eq.mpr hpf⟩)
  refine ⟨addNamedImport_idem mb id1 from_, ?_, ?_, ?_, ?_, ?_,
    namedImportGroup_ordered mb⟩
  · rw [namedIdentifiersOf_addNamedImport, (sortByKey_perm _ _).count_eq]
    exact List.count_eq_one_of_mem (setAdd_nodup _ _ hset) (mem_setAdd_self _ _)
  · exact count_keys_addNamedImport (mb.addNamedImport id1 from_) id2 from_ hkeys1
  · rw [hones, (sortByKey_perm _ _).count_eq]
    exact List.count_eq_one_of_mem hnodup2
      (mem_setAdd_of_mem _ _ _ (mem_setAdd_self _ _))
  · rw [hones, (sortByKey_perm _ _).count_eq]
    exact List.count_eq_one_of_mem hnodup2 (mem_setAdd_self _ _)
  · rw [hones]
    exact sortByKey_sorted jsToLower _

/-- Witness for C6 on a fresh builder, registering `string` twice and
`Decoder` once for the module `decoders`. -/
theorem moduleBuilder_named_imports_witness :
    (((ModuleBuilder.new "").addNamedImport "string" "decoders").addNamedImport
        "string" "decoders" = (ModuleBuilder.new "").addNamedImport "string" "decoders")
  ∧ (sortByKey jsToLower
      ((((ModuleBuilder.new "").addNamedImport "string" "decoders").addNamedImport
        "Decoder" "decoders").namedIdentifiersOf "decoders")).count "string" = 1
  ∧ (sortByKey jsToLower
      ((((ModuleBuilder.new "").addNamedImport "string" "decoders").addNamedImport
        "Decoder" "decoders").namedIdentifiersOf "decoders")).Pairwise
      (fun a b => jsStrLe (jsToLower a) (jsToLower b) = true) := by
  have h := moduleBuilder_named_imports (ModuleBuilder.new "") "string" "Decoder"
    "decoders" (by constructor) (by constructor) (by decide)
  exact ⟨h.1, h.2.2.2.1, h.2.2.2.2.2.1⟩

theorem exceptMapM_ok_iff (f : α → Except GenError β) (l : List α) (bs : List β) :
    exceptMapM f l = Except.ok bs ↔
      List.Forall₂ (fun a b => f a = Except.ok b) l bs := by
  induction l generalizing bs with
  | nil =>
    constructor
    · intro h
      cases h
      exact List.Forall₂.nil
    · intro h
      rw [List.forall₂_nil_left_iff] at h
      rw [h]
      rfl
  | cons a as ih =>
    constructor
    · intro h
      unfold exceptMapM at h
      cases hf : f a with
      | error e => rw [hf] at h; cases h
      | ok b =>
        rw [hf] at h
        cases hm : exceptMapM f as with
        | error e => rw [hm] at h; cases h
        | ok bs' =>
          rw [hm] at h
          cases h
          exact List.Forall₂.cons hf ((ih bs').mp hm)
    · intro h
      rcases List.forall₂_cons_left_iff.mp h with ⟨b, bs', hab, hrest, rfl⟩
      unfold exceptMapM
      rw [hab, (ih bs').mpr hrest]

theorem forall₂_mem_left {R : α → β → Prop} {l1 : List α} {l2 : List β}
    (h : List.Forall₂ R l1 l2) {a : α} (ha : a ∈ l1) : ∃ b, b ∈ l2 ∧ R a b := by
  induction h with
  | nil => cases ha
  | cons hab hrest ih =>
    rcases List.mem_cons.mp ha with rfl | ha2
    · exact ⟨_, List.mem_cons_self _ _, hab⟩
    · rcases ih ha2 with ⟨b, hb, hR⟩
      exact ⟨b, List.mem_cons_of_mem _ hb, hR⟩

theorem forall₂_append_split {R : α → β → Prop} :
    ∀ {l1 l2 : List α} {bs : List β}, List.Forall₂ R (l1 ++ l2) bs →
      ∃ bs1 bs2, bs = bs1 ++ bs2 ∧ List.Forall₂ R l1 bs1 ∧ List.Forall₂ R l2 bs2 := by
  intro l1
  induction l1 with
  | nil =>
    intro l2 bs h
    exact ⟨[], bs, rfl, List.Forall₂.nil, h⟩
  | cons a as ih =>
    intro l2 bs h
    rcases List.forall₂_cons_left_iff.mp h with ⟨b, bs', hab, hrest, rfl⟩
    rcases ih hrest with ⟨bs1, bs2, rfl, h1, h2⟩
    exact ⟨b :: bs1, bs2, rfl, List.Forall₂.cons hab h1, h2⟩

theorem jsJoin_cons (sep a : String) (l : List String) (h : l ≠ []) :
    jsJoin sep (a :: l) = a ++ sep ++ jsJoin sep l := by
  cases l with
  | nil => exact absurd rfl h
  | cons b rest => rfl

theorem jsJoin_append (sep : String) (l1 l2 : List String) (h1 : l1 ≠ []) (h2 : l2 ≠ []) :
    jsJoin sep (l1 ++ l2) = jsJoin sep l1 ++ sep ++ jsJoin sep l2 := by
  induction l1 with
  | nil => exact absurd rfl h1
  | cons a as ih =>
    cases as with
    | nil =>
      rw [List.singleton_append, jsJoin_cons sep a l2 h2]
      rfl
    | cons b bs =>
      rw [List.cons_append, jsJoin_cons sep a ((b :: bs) ++ l2) (by simp),
        ih (by simp), jsJoin_cons sep a (b :: bs) (by simp)]
      simp [String.append_assoc]

theorem jsJoin_flatten_sections (sep : String) (sections : List (List String))
    (post : List String) (hs : ∀ s ∈ sections, s ≠ []) (hp : post ≠ []) :
    jsJoin sep (sections.map (jsJoin sep) ++ post) =
      jsJoin sep (sections.flatten ++ post) := by
  induction sections with
  | nil => rfl
  | cons s ss ih =>
    have hs0 : s ≠ [] := hs s (List.mem_cons_self _ _)
    have hss : ∀ t ∈ ss, t ≠ [] := fun t ht => hs t (List.mem_cons_of_mem _ ht)
    have hpost1 : ss.map (jsJoin sep) ++ post ≠ [] := by
      intro hc
      rcases List.append_eq_nil.mp hc with ⟨_, h2⟩
      exact hp h2
    have hpost2 : ss.flatten ++ post ≠ [] := by
      intro hc
      rcases List.append_eq_nil.mp hc with ⟨_, h2⟩
      exact hp h2
    rw [List.map_cons, List.cons_append, jsJoin_cons sep _ _ hpost1, ih hss,
      List.flatten_cons, List.append_assoc, jsJoin_append sep s _ hs0 hpost2]

theorem forall₂_mem_right {R : α → β → Prop} {l1 : List α} {l2 : List β}
    (h : List.Forall₂ R l1 l2) {b : β} (hb : b ∈ l2) : ∃ a, a ∈ l1 ∧ R a b := by
  induction h with
  | nil => cases hb
  | cons hab hrest ih =>
    rcases List.mem_cons.mp hb with rfl | hb2
    · exact ⟨_, List.mem_cons_self _ _, hab⟩
    · rcases ih hb2 with ⟨a, ha, hR⟩
      exact ⟨a, List.mem_cons_of_mem _ ha, hR⟩

theorem objectIfaceSection_shape (node : GObjectData) (iface : GInterfaceData)
    (sec : List String) (h : objectIfaceSection node iface = Except.ok sec) :
    ∃ fieldLines, exceptMapM (toFieldTypeDefinition node) iface.fields =
        Except.ok fieldLines ∧
      sec = "" :: ("// From " ++ iface.name) :: fieldLines := by
  unfold objectIfaceSection at h
  cases hf : exceptMapM (toFieldTypeDefinition node) iface.fields with
  | error e => rw [hf] at h; cases h
  | ok fl =>
    rw [hf] at h
    cases h
    exact ⟨fl, rfl, rfl⟩

theorem objectResolver_flatten (node : GObjectData) :
    (objectResolverLines node).map (jsJoin "\n") =
      (objectResolverFlatLines node).map (jsJoin "\n") := by
  unfold objectResolverLines objectResolverFlatLines
  cases hsec : exceptMapM (objectIfaceSection node) node.interfaces with
  | error e => rfl
  | ok sections =>
    cases hown : objectOwnFieldLines node with
    | error e => rfl
    | ok ownLines =>
      show Except.ok (jsJoin "\n" _) = Except.ok (jsJoin "\n" _)
      congr 1
      have hs : ∀ s ∈ sections, s ≠ [] := by
        intro s hsmem
        rcases forall₂_mem_right ((exceptMapM_ok_iff _ _ _).mp hsec) hsmem
          with ⟨iface, _, hok⟩
        rcases objectIfaceSection_shape node iface s hok with ⟨fl, _, rfl⟩
        simp
      have hpost : ownLines ++ ["|\x7d"] ≠ [] := by simp
      have hX : sections.map (jsJoin "\n") ++ (ownLines ++ ["|\x7d"]) ≠ [] := by
        intro hc
        rcases List.append_eq_nil.mp hc with ⟨_, h2⟩
        simp at h2
      have hY : sections.flatten ++ (ownLines ++ ["|\x7d"]) ≠ [] := by
        intro hc
        rcases List.append_eq_nil.mp hc with ⟨_, h2⟩
        simp at h2
      have e1 : ((("export type " ++ node.name ++ "Resolver = \x7b|")
            :: sections.map (jsJoin "\n")) ++ ownLines ++ ["|\x7d"]) =
          ("export type " ++ node.name ++ "Resolver = \x7b|")
            :: (sections.map (jsJoin "\n") ++ (ownLines ++ ["|\x7d"])) := by
        simp [List.append_assoc]
      have e2 : ((("export type " ++ node.name ++ "Resolver = \x7b|")
            :: sections.flatten) ++ ownLines ++ ["|\x7d"]) =
          ("export type " ++ node.name ++ "Resolver = \x7b|")
            :: (sections.flatten ++ (ownLines ++ ["|\x7d"])) := by
        simp [List.append_assoc]
      rw [e1, e2, jsJoin_cons _ _ _ hX, jsJoin_cons _ _ _ hY,
        jsJoin_flatten_sections "\n" sections (ownLines ++ ["|\x7d"]) hs hpost]

theorem toFieldTypeDefinition_ok_shape (node : GObjectData) (f : GField) (line : String)
    (h : toFieldTypeDefinition node f = Except.ok line) :
    ∃ rest, line = f.name ++ ": Resolver<" ++ rest ++ ">," := by
  unfold toFieldTypeDefinition at h
  cases ho : toFlowOutputTypeRef f.type with
  | error e => rw [ho] at h; cases h
  | ok output =>
    rw [ho] at h
    cases ha : (if f.args.length == 0 then Except.ok none
        else (toFlowArgType f.args).map some : Except GenError (Option String)) with
    | error e => rw [ha] at h; cases h
    | ok args =>
      rw [ha] at h
      cases h
      exact ⟨_, rfl⟩

theorem toFieldTypeDefinition_ok_data (node : GObjectData) (f : GField) (line : String)
    (h : toFieldTypeDefinition node f = Except.ok line) :
    ∃ tail, line.data = f.name.data ++ ':' :: tail := by
  rcases toFieldTypeDefinition_ok_shape node f line h with ⟨rest, rfl⟩
  refine ⟨(" Resolver<" : String).data ++ rest.data ++ (">," : String).data, ?_⟩
  rw [String.data_append, String.data_append, String.data_append]
  have hcol : (": Resolver<" : String).data = ':' :: (" Resolver<" : String).data := by
    decide
  rw [hcol]
  simp [List.append_assoc]

theorem colon_prefix_inj : ∀ (l1 l2 r1 r2 : List Char), ':' ∉ l1 → ':' ∉ l2 →
    l1 ++ ':' :: r1 = l2 ++ ':' :: r2 → l1 = l2 := by
  intro l1
  induction l1 with
  | nil =>
    intro l2 r1 r2 _ h2 h
    cases l2 with
    | nil => rfl
    | cons b bs =>
      rw [List.nil_append, List.cons_append] at h
      injection h with hb _
      exact absurd (by rw [← hb]; exact List.mem_cons_self _ _) h2
  | cons a as ih =>
    intro l2 r1 r2 h1 h2 h
    cases l2 with
    | nil =>
      rw [List.nil_append, List.cons_append] at h
      injection h with hb _
      exact absurd (by rw [hb]; exact List.mem_cons_self _ _) h1
    | cons b bs =>
      rw [List.cons_append, List.cons_append] at h
      injection h with hab hrest
      rw [hab, ih bs r1 r2 (fun hm => h1 (List.mem_cons_of_mem _ hm))
        (fun hm => h2 (List.mem_cons_of_mem _ hm)) hrest]

theorem toFieldTypeDefinition_name_eq (node : GObjectData) (f g : GField) (line : String)
    (hf : toFieldTypeDefinition node f = Except.ok line)
    (hg : toFieldTypeDefinition node g = Except.ok line)
    (hcf : colonFree f.name) (hcg : colonFree g.name) : f.name = g.name := by
  rcases toFieldTypeDefinition_ok_data node f line hf with ⟨t1, hd1⟩
  rcases toFieldTypeDefinition_ok_data node g line hg with ⟨t2, hd2⟩
  exact String.ext (colon_prefix_inj f.name.data g.name.data t1 t2 hcf hcg
    (hd1.symm.trans hd2))

theorem ne_line_of_colonFree (s line : String) (pre tail : List Char)
    (hs : colonFree s) (hdata : line.data = pre ++ ':' :: tail) : s ≠ line := by
  intro h
  subst h
  apply hs
  rw [hdata]
  exact List.mem_append.mpr (Or.inr (List.mem_cons_self _ _))

theorem line_not_mem (node : GObjectData) (fieldName line : String)
    (gs : List GField) (lines : List String)
    (hfa : List.Forall₂ (fun g s => toFieldTypeDefinition node g = Except.ok s) gs lines)
    (hne : ∀ g ∈ gs, g.name ≠ fieldName)
    (hcg : ∀ g ∈ gs, colonFree g.name)
    (hcf : colonFree fieldName)
    (hdata : ∃ tail, line.data = fieldName.data ++ ':' :: tail) :
    line ∉ lines := by
  intro hmem
  rcases forall₂_mem_right hfa hmem with ⟨g, hg, hgr⟩
  rcases toFieldTypeDefinition_ok_data node g line hgr with ⟨t2, hd2⟩
  rcases hdata with ⟨t1, hd1⟩
  exact hne g hg (String.ext (colon_prefix_inj g.name.data fieldName.data t2 t1
    (hcg g hg) hcf (hd2.symm.trans hd1)))

theorem colonFree_append (a b : String) (ha : colonFree a) (hb : colonFree b) :
    colonFree (a ++ b) := by
  unfold colonFree at ha hb ⊢
  rw [String.data_append]
  intro h
  rcases List.mem_append.mp h with h | h
  exacts [ha h, hb h]

theorem line_ne_empty (line fieldName : String)
    (hdata : ∃ tail, line.data = fieldName.data ++ ':' :: tail) :
    ("" : String) ≠ line := by
  intro h
  rcases hdata with ⟨t, hd⟩
  rw [← h] at hd
  exact absurd hd.symm (by simp)

theorem count_section_zero (node : GObjectData) (fieldName line : String)
    (hcf : colonFree fieldName)
    (hdata : ∃ tail, line.data = fieldName.data ++ ':' :: tail)
    (iface : GInterfaceData) (sec : List String)
    (hsec : objectIfaceSection node iface = Except.ok sec)
    (hciface : colonFree iface.name)
    (hcg : ∀ g ∈ iface.fields, colonFree g.name)
    (hne : ∀ g ∈ iface.fields, g.name ≠ fieldName) :
    sec.count line = 0 := by
  rcases objectIfaceSection_shape node iface sec hsec with ⟨fl, hfl, rfl⟩
  rw [List.count_eq_zero]
  intro hmem
  rcases List.mem_cons.mp hmem with h | hmem2
  · exact line_ne_empty line fieldName hdata h.symm
  rcases List.mem_cons.mp hmem2 with h | hmem3
  · rcases hdata with ⟨t, hd⟩
    exact ne_line_of_colonFree _ line fieldName.data t
      (colonFree_append "// From " iface.name (by unfold colonFree; decide) hciface) hd h.symm
  · exact line_not_mem node fieldName line iface.fields fl
      ((exceptMapM_ok_iff _ _ _).mp hfl) hne hcg hcf hdata hmem3

theorem count_sections_zero (node : GObjectData) (fieldName line : String)
    (hcf : colonFree fieldName)
    (hdata : ∃ tail, line.data = fieldName.data ++ ':' :: tail)
    (ifaces : List GInterfaceData) (sections : List (List String))
    (hfa : List.Forall₂ (fun i s => objectIfaceSection node i = Except.ok s)
      ifaces sections)
    (hc1 : ∀ i ∈ ifaces, colonFree i.name)
    (hc2 : ∀ i ∈ ifaces, ∀ g ∈ i.fields, colonFree g.name)
    (hne : ∀ i ∈ ifaces, ∀ g ∈ i.fields, g.name ≠ fieldName) :
    sections.flatten.count line = 0 := by
  rw [List.count_eq_zero]
  intro hmem
  rw [List.mem_flatten] at hmem
  rcases hmem with ⟨sec, hsecmem, hline⟩
  rcases forall₂_mem_right hfa hsecmem with ⟨i, hi, hio⟩
  have h0 := count_section_zero node fieldName line hcf hdata i sec hio
    (hc1 i hi) (hc2 i hi) (hne i hi)
  rw [List.count_eq_zero] at h0
  exact h0 hline

theorem count_section_one (node : GObjectData) (fieldName line : String)
    (hcf : colonFree fieldName)
    (hdata : ∃ tail, line.data = fieldName.data ++ ':' :: tail)
    (iface : GInterfaceData) (sec : List String)
    (hsec : objectIfaceSection node iface = Except.ok sec)
    (hciface : colonFree iface.name)
    (hcg : ∀ g ∈ iface.fields, colonFree g.name)
    (field : GField)
    (fpre fpost : List GField) (hfe : iface.fields = fpre ++ field :: fpost)
    (hnp : ∀ g ∈ fpre, g.name ≠ fieldName) (hns : ∀ g ∈ fpost, g.name ≠ fieldName)
    (hline : toFieldTypeDefinition node field = Except.ok line) :
    sec.count line = 1 := by
  rcases objectIfaceSection_shape node iface sec hsec with ⟨fl, hfl, rfl⟩
  have hfa := (exceptMapM_ok_iff _ _ _).mp hfl
  rw [hfe] at hfa
  rcases forall₂_append_split hfa with ⟨lpre, lrest, hle, hfa1, hfa2⟩
  rcases List.forall₂_cons_left_iff.mp hfa2 with ⟨lmid, lpost, hmid, hfa3, hre⟩
  subst hre
  subst hle
  have hlm : lmid = line := by
    have h2 := hline.symm.trans hmid
    injection h2 with h3
    exact h3.symm
  rw [hlm]
  have hpre0 : lpre.count line = 0 := by
    rw [List.count_eq_zero]
    exact line_not_mem node fieldName line fpre lpre hfa1 hnp
      (fun g hg => hcg g (by rw [hfe]; exact List.mem_append.mpr (Or.inl hg))) hcf hdata
  have hpost0 : lpost.count line = 0 := by
    rw [List.count_eq_zero]
    exact line_not_mem node fieldName line fpost lpost hfa3 hns
      (fun g hg => hcg g (by
        rw [hfe]
        exact List.mem_append.mpr (Or.inr (List.mem_cons_of_mem _ hg)))) hcf hdata
  have hne1 : line ≠ "" := (line_ne_empty line fieldName hdata).symm
  have hne2 : line ≠ "// From " ++ iface.name := by
    rcases hdata with ⟨t, hd⟩
    exact (ne_line_of_colonFree _ line fieldName.data t
      (colonFree_append "// From " iface.name (by unfold colonFree; decide) hciface) hd).symm
  rw [List.count_cons_of_ne hne1, List.count_cons_of_ne hne2, List.count_append,
    hpre0, List.count_cons_self, hpost0]

/-- C2 (amended).  For every Object type and every interface `I` it
implements, each field declared on `I` is emitted once inside `I`'s
provenance-tagged section, and appears exactly once in the whole synthesized
resolver shape provided `I` is the only implemented interface declaring that
field name — the Object redeclaring the field among its own fields never
adds an occurrence.  (When several implemented interfaces declare the same
field name, the field is emitted once per such interface; see the
counterexample.)  Names are assumed colon-free, as GraphQL names are. -/
theorem objectResolver_interface_field_once
    (node : GObjectData) (iface : GInterfaceData) (field : GField) (L : List String)
    (hL : objectResolverFlatLines node = Except.ok L)
    (hiface : iface ∈ node.interfaces)
    (hfield : field ∈ iface.fields)
    (honce : (node.interfaces.flatMap (fun i => i.fields)).countP
        (fun g => g.name == field.name) = 1)
    (hcolon : ∀ i ∈ node.interfaces, colonFree i.name ∧ ∀ g ∈ i.fields, colonFree g.name)
    (hcolonOwn : ∀ g ∈ node.fields, colonFree g.name)
    (hcolonNode : colonFree node.name) :
    ∃ line sec,
      toFieldTypeDefinition node field = Except.ok line ∧
      objectIfaceSection node iface = Except.ok sec ∧
      line ∈ sec ∧ ("// From " ++ iface.name) ∈ sec ∧
      sec <:+: L ∧
      L.count line = 1 ∧
      (objectResolverLines node).map (jsJoin "\n") = Except.ok (jsJoin "\n" L) := by
  rcases List.append_of_mem hiface with ⟨ipre, ipost, hie⟩
  rcases List.append_of_mem hfield with ⟨fpre, fpost, hfe⟩
  have hp : (field.name == field.name) = true := beq_iff_eq.mpr rfl
  rw [hie] at honce
  simp only [List.flatMap_append, List.flatMap_cons, List.countP_append] at honce
  rw [hfe] at honce
  simp only [List.countP_append, List.countP_cons] at honce
  rw [if_pos hp] at honce
  have hz1 : (ipre.flatMap (fun i => i.fields)).countP
      (fun g => g.name == field.name) = 0 := by omega
  have hz2 : fpre.countP (fun g => g.name == field.name) = 0 := by omega
  have hz3 : fpost.countP (fun g => g.name == field.name) = 0 := by omega
  have hz4 : (ipost.flatMap (fun i => i.fields)).countP
      (fun g => g.name == field.name) = 0 := by omega
  have hne_pre : ∀ i ∈ ipre, ∀ g ∈ i.fields, g.name ≠ field.name := by
    intro i hi g hg he
    exact List.countP_eq_zero.mp hz1 g (List.mem_flatMap.mpr ⟨i, hi, hg⟩)
      (beq_iff_eq.mpr he)
  have hne_post : ∀ i ∈ ipost, ∀ g ∈ i.fields, g.name ≠ field.name := by
    intro i hi g hg he
    exact List.countP_eq_zero.mp hz4 g (List.mem_flatMap.mpr ⟨i, hi, hg⟩)
      (beq_iff_eq.mpr he)
  have hne_fpre : ∀ g ∈ fpre, g.name ≠ field.name := by
    intro g hg he
    exact List.countP_eq_zero.mp hz2 g hg (beq_iff_eq.mpr he)
  have hne_fpost : ∀ g ∈ fpost, g.name ≠ field.name := by
    intro g hg he
    exact List.countP_eq_zero.mp hz3 g hg (beq_iff_eq.mpr he)
  unfold objectResolverFlatLines at hL
  cases hsec : exceptMapM (objectIfaceSection node) node.interfaces with
  | error e => rw [hsec] at hL; cases hL
  | ok sections =>
  rw [hsec] at hL
  cases hown : objectOwnFieldLines node with
  | error e => rw [hown] at hL; cases hL
  | ok ownLines =>
  rw [hown] at hL
  injection hL with hLe
  subst hLe
  have hfa := (exceptMapM_ok_iff _ _ _).mp hsec
  rw [hie] at hfa
  rcases forall₂_append_split hfa with ⟨spre, srest, hseq, hfa1, hfa2⟩
  rcases List.forall₂_cons_left_iff.mp hfa2 with ⟨sec, spost, hsecok, hfa3, hre⟩
  subst hre
  subst hseq
  rcases objectIfaceSection_shape node iface sec hsecok with ⟨fl, hflok, hsecshape⟩
  have hfl2 := (exceptMapM_ok_iff _ _ _).mp hflok
  rcases forall₂_mem_left hfl2 hfield with ⟨line, hlinefl, hlineok⟩
  have hdataf := toFieldTypeDefinition_ok_data node field line hlineok
  have hciface := (hcolon iface hiface).1
  have hcifacefields := (hcolon iface hiface).2
  have hcf : colonFree field.name := hcifacefields field hfield
  refine ⟨line, sec, hlineok, hsecok, ?_, ?_, ?_, ?_, ?_⟩
  · rw [hsecshape]
    exact List.mem_cons_of_mem _ (List.mem_cons_of_mem _ hlinefl)
  · rw [hsecshape]
    exact List.mem_cons_of_mem _ (List.mem_cons_self _ _)
  · have h1 : sec <:+: (spre ++ sec :: spost).flatten :=
      List.infix_of_mem_flatten (List.mem_append.mpr (Or.inr (List.mem_cons_self _ _)))
    refine h1.trans ?_
    exact ⟨["export type " ++ node.name ++ "Resolver = \x7b|"], ownLines ++ ["|\x7d"],
      by simp [List.append_assoc]⟩
  · have hheader : line ≠ "export type " ++ node.name ++ "Resolver = \x7b|" := by
      rcases hdataf with ⟨t, hd⟩
      exact (ne_line_of_colonFree _ line field.name.data t
        (colonFree_append _ _
          (colonFree_append "export type " node.name (by unfold colonFree; decide)
            hcolonNode)
          (by unfold colonFree; decide)) hd).symm
    rw [List.count_append, List.count_append, List.count_cons_of_ne hheader,
      List.flatten_append, List.flatten_cons, List.count_append, List.count_append]
    have hc_pre : spre.flatten.count line = 0 :=
      count_sections_zero node field.name line hcf hdataf ipre spre hfa1
        (fun i hi => (hcolon i (by rw [hie]; exact List.mem_append.mpr (Or.inl hi))).1)
        (fun i hi => (hcolon i (by rw [hie]; exact List.mem_append.mpr (Or.inl hi))).2)
        hne_pre
    have hc_post : spost.flatten.count line = 0 :=
      count_sections_zero node field.name line hcf hdataf ipost spost hfa3
        (fun i hi => (hcolon i (by
          rw [hie]
          exact List.mem_append.mpr (Or.inr (List.mem_cons_of_mem _ hi)))).1)
        (fun i hi => (hcolon i (by
          rw [hie]
          exact List.mem_append.mpr (Or.inr (List.mem_cons_of_mem _ hi)))).2)
        hne_post
    have hc_sec : sec.count line = 1 :=
      count_section_one node field.name line hcf hdataf iface sec hsecok hciface
        hcifacefields field fpre fpost hfe hne_fpre hne_fpost hlineok
    have hc_own : ownLines.count line = 0 := by
      rw [List.count_eq_zero]
      unfold objectOwnFieldLines at hown
      have hofa := (exceptMapM_ok_iff _ _ _).mp hown
      refine line_not_mem node field.name line _ ownLines hofa ?_ ?_ hcf hdataf
      · intro g hg he
        have hseenmem : field.name ∈ objectSeenFieldNames node := by
          unfold objectSeenFieldNames
          exact List.mem_flatMap.mpr ⟨iface, hiface, List.mem_map.mpr ⟨field, hfield, rfl⟩⟩
        have hgf := (List.mem_filter.mp hg).2
        rw [he] at hgf
        have hcontains : (objectSeenFieldNames node).contains field.name = true :=
          List.elem_iff.mpr hseenmem
        rw [hcontains] at hgf
        cases hgf
      · intro g hg
        exact hcolonOwn g (List.mem_of_mem_filter hg)
    have hbrace : List.count line ["|\x7d"] = 0 := by
      rw [List.count_eq_zero]
      intro hmem
      rcases hdataf with ⟨t, hd⟩
      exact (ne_line_of_colonFree "|\x7d" line field.name.data t
        (by unfold colonFree; decide) hd) (List.mem_singleton.mp hmem).symm
    rw [hc_pre, hc_post, hc_sec, hc_own, hbrace]
  · rw [objectResolver_flatten node]
    unfold objectResolverFlatLines
    rw [hsec, hown]
    rfl

/-- Witness for C2: `User` implements `Node` (which declares `id`) and
redeclares `id` among its own fields; `id`'s resolver line appears exactly
once. -/
theorem objectResolver_interface_field_once_witness :
    objectResolverFlatLines objUser = Except.ok
      ["export type UserResolver = \x7b|", "", "// From Node",
       "id: Resolver<User,string | number | null>,",
       "name: Resolver<User,string | null>,", "|\x7d"]
  ∧ (["export type UserResolver = \x7b|", "", "// From Node",
       "id: Resolver<User,string | number | null>,",
       "name: Resolver<User,string | null>,", "|\x7d"].count
       "id: Resolver<User,string | number | null>,") = 1 := by
  have h := objectResolver_interface_field_once objUser ifaceNode
    (GField.mk "id" (GType.scalar "ID") [])
    ["export type UserResolver = \x7b|", "", "// From Node",
     "id: Resolver<User,string | number | null>,",
     "name: Resolver<User,string | null>,", "|\x7d"]
    rfl (List.mem_cons_self _ _) (List.mem_cons_self _ _) (by decide)
    (by
      intro i hi
      have he := List.mem_singleton.mp hi
      subst he
      refine ⟨by unfold colonFree; decide, ?_⟩
      intro g hg
      have he2 := List.mem_singleton.mp hg
      subst he2
      unfold colonFree
      decide)
    (by
      intro g hg
      rcases List.mem_cons.mp hg with he | hg2
      · subst he
        unfold colonFree
        decide
      · have he2 := List.mem_singleton.mp hg2
        subst he2
        unfold colonFree
        decide)
    (by unfold colonFree; decide)
  obtain ⟨line, sec, hrender, _, _, _, _, hcount, _⟩ := h
  have hline : line = "id: Resolver<User,string | number | null>," := by
    have h2 : Except.ok (ε := GenError) line =
        Except.ok "id: Resolver<User,string | number | null>," := hrender.symm.trans rfl
    injection h2
  rw [hline] at hcount
  exact ⟨rfl, hcount⟩

/-- Counterexample to C2 as stated: `Widget` implements two interfaces that
both declare `name`; the field's resolver line is emitted once per interface
section, so it appears twice in the synthesized shape, not exactly once. -/
theorem objectResolver_shared_field_counterexample :
    objectResolverFlatLines objWidget = Except.ok
      ["export type WidgetResolver = \x7b|", "", "// From Named",
       "name: Resolver<Widget,string | null>,", "", "// From Displayable",
       "name: Resolver<Widget,string | null>,", "|\x7d"]
  ∧ (["export type WidgetResolver = \x7b|", "", "// From Named",
      "name: Resolver<Widget,string | null>,", "", "// From Displayable",
      "name: Resolver<Widget,string | null>,", "|\x7d"].count
      "name: Resolver<Widget,string | null>,") = 2
  ∧ (objectResolverLines objWidget).map (jsJoin "\n") = Except.ok
      (jsJoin "\n"
        ["export type WidgetResolver = \x7b|", "", "// From Named",
         "name: Resolver<Widget,string | null>,", "", "// From Displayable",
         "name: Resolver<Widget,string | null>,", "|\x7d"]) :=
  ⟨rfl, by decide, rfl⟩
